import Mathlib

/-!
Verification of gonic: startup configuration, file helpers and request handlers.

A shallow embedding of the configuration parsing and validation done by
`cmd/gonic/gonic.go`, of `pkg/tags/taglib.go` (`CanRead`), of
`internal/utils/fileutil.go` (`First`, `HasPrefix`), of the subsonic middleware
and handlers of `server/subsonic` (`withUser`, `writeResp`, `ServeGetPlayQueue`,
`ServeGetCoverArt`, `ServeGetLyrics`) and of the admin handlers built on
`selectedUserIfAdmin` in `server/admin/handlers.go`.

Go strings are modelled as lists of characters (`Str`).  The separators the
code cuts on (`" "`, `"->"`, `'.'`, `'/'`) are ASCII, so cutting a valid UTF-8
string at byte level and at character level gives the same pieces.  Packages
whose source is not available (db, spec, specid, scanner) and library calls
appear as parameters or as small structures holding the fields the code uses.
-/

namespace Gonic

/-- A Go string, as the list of its characters. -/
abbrev Str := List Char

deriving instance DecidableEq for Except

/-! ## Go standard library: `strings.Index`, `strings.Cut` -/

/-- The function `strings.Index(s, sep)`: the index of the first occurrence of
`sep` in `s`; `none` stands for Go's `-1`. -/
def index : Str → Str → Option Nat
  | [], sep => if sep.isPrefixOf [] then some 0 else none
  | c :: t, sep =>
    if sep.isPrefixOf (c :: t) then some 0
    else (index t sep).map (· + 1)

/-- The function `strings.Cut(s, sep)`:
`if i := Index(s, sep); i >= 0 { return s[:i], s[i+len(sep):], true }; return s, "", false`. -/
def cut (s sep : Str) : Str × Str × Bool :=
  match index s sep with
  | some i => (s.take i, s.drop (i + sep.length), true)
  | none => (s, [], false)

/-! ## `scanner.MultiValueSetting` and `multiValueSetting.Set` -/

/-- Modelled from the spec: `scanner.MultiValueMode` is declared in the scanner
package, whose source is not available; the spec names the three modes
None/Multi/Delim, and `None` is the zero value (a never-set flag prints
"none" and `main` tests `Mode > scanner.None` for "is set"). -/
inductive MultiValueMode where
  | None
  | Delim
  | Multi
  deriving DecidableEq, Repr

/-- The numeric value of a mode; only `None = 0` is relied upon. -/
def MultiValueMode.toNat : MultiValueMode → Nat
  | .None => 0
  | .Delim => 1
  | .Multi => 2

/-- The struct `scanner.MultiValueSetting{Mode, Delim}`, of which
`multiValueSetting` is a named copy. -/
structure multiValueSetting where
  Mode : MultiValueMode
  Delim : Str
  deriving DecidableEq, Repr

/-- The zero value `var x multiValueSetting`. -/
def multiValueSetting.zero : multiValueSetting := ⟨.None, []⟩

/-- The two errors `multiValueSetting.Set` can return. -/
inductive SetError where
  | noDelimiter
  | unknownMode (mode : Str)
  deriving DecidableEq, Repr

/-- The method `(mvs *multiValueSetting) Set(value string) error`: the pair of
the receiver after the call and the returned error (`none` is `nil`). -/
def multiValueSetting.Set (mvs : multiValueSetting) (value : Str) :
    multiValueSetting × Option SetError :=
  let r := cut value [' ']
  let mode := r.1
  let delim := r.2.1
  if mode = ['d', 'e', 'l', 'i', 'm'] then
    if delim = [] then (mvs, some .noDelimiter)
    else ({ Mode := .Delim, Delim := delim }, none)
  else if mode = ['m', 'u', 'l', 't', 'i'] then
    ({ mvs with Mode := .Multi }, none)
  else if mode = ['n', 'o', 'n', 'e'] then
    (mvs, none)
  else (mvs, some (.unknownMode mode))

/-! ## `main`: genre-split override, artist defaulting, consistency check -/

/-- The settings `main` hands to `scanner.New`, keyed by tag. -/
structure ScannerSettings where
  Genre : multiValueSetting
  Artist : multiValueSetting
  AlbumArtist : multiValueSetting
  deriving DecidableEq, Repr

/-- The deprecated `genre-split` override of `main`:
`if split != "" && split != "\n" { genre = {Delim, split} }`. -/
def genreSplitOverride (split : Str) (genre : multiValueSetting) : multiValueSetting :=
  if split ≠ [] ∧ split ≠ ['\n'] then { Mode := .Delim, Delim := split } else genre

/-- The artist defaulting of `main`:
`if artist.Mode == None && albumArtist.Mode > None { artist = albumArtist }`
(mode and delimiter are both copied). -/
def artistDefault (artist albumArtist : multiValueSetting) : multiValueSetting :=
  if artist.Mode = .None ∧ albumArtist.Mode.toNat > MultiValueMode.None.toNat then
    { artist with Mode := albumArtist.Mode, Delim := albumArtist.Delim }
  else artist

/-- The reason `main` aborts with `log.Panic` in the multi-value section. -/
inductive StartupPanic where
  | differingArtistModes
  deriving DecidableEq, Repr

/-- The multi-value section of `main`, from the `genre-split` override up to the
map given to `scanner.New`: `.error` is the `log.Panic` (the scanner is never
constructed), `.ok` carries the three settings handed to `scanner.New`. -/
def mainMultiValue (split : Str) (genre artist albumArtist : multiValueSetting) :
    Except StartupPanic ScannerSettings :=
  let genre := genreSplitOverride split genre
  let artist := artistDefault artist albumArtist
  if artist.Mode ≠ albumArtist.Mode then .error .differingArtistModes
  else .ok { Genre := genre, Artist := artist, AlbumArtist := albumArtist }

/-- A flag after the given `Set` calls in order, starting from the zero value;
a failing call leaves the value as it was. -/
def parseFlag (values : List Str) : multiValueSetting :=
  values.foldl (fun mvs v => (mvs.Set v).1) multiValueSetting.zero

/-! ## `pathAliases.Set` -/

/-- The constant `pathAliasSep`. -/
def pathAliasSep : Str := ['-', '>']

/-- The struct `pathAlias{alias, path}` (the field `alias` is written `alias_`). -/
structure pathAlias where
  alias_ : Str
  path : Str
  deriving DecidableEq, Repr

/-- The slice type `pathAliases`. -/
abbrev pathAliases := List pathAlias

/-- The method `(pa *pathAliases) Set(value string) error`: the receiver after
the call and the returned error (`none` is `nil`; no error message is ever
produced). -/
def pathAliases.Set (pa : pathAliases) (value : Str) : pathAliases × Option Str :=
  let r := cut value pathAliasSep
  if r.2.2 then (pa ++ [{ alias_ := r.1, path := r.2.1 }], none)
  else (pa ++ [{ alias_ := [], path := value }], none)

/-! ## `validatePath` and the music-root loop of `main` -/

/-- The file system as the code sees it: `os.Stat` (only its error, `none` is
`nil`), `os.IsNotExist` on such an error, and `filepath.Abs`. -/
structure FileSys (ε : Type) where
  stat : Str → Option ε
  isNotExist : ε → Bool
  abs : Str → Except ε Str

/-- The errors of `validatePath`. -/
inductive PathError (ε : Type) where
  | empty
  | doesNotExist
  | makeAbsolute (err : ε)
  deriving DecidableEq, Repr

/-- The result of `os.IsNotExist(err)` for the error of `os.Stat(p)`;
`os.IsNotExist(nil)` is false. -/
def statNotExist {ε : Type} (fs : FileSys ε) (p : Str) : Bool :=
  match fs.stat p with
  | some e => fs.isNotExist e
  | none => false

/-- The function `validatePath(p string) (string, error)`. -/
def validatePath {ε : Type} (fs : FileSys ε) (p : Str) : Except (PathError ε) Str :=
  if p = [] then .error .empty
  else if statNotExist fs p then .error .doesNotExist
  else match fs.abs p with
    | .error e => .error (.makeAbsolute e)
    | .ok q => .ok q

/-- The reasons `main` stops with `log.Fatalf` while checking the music roots. -/
inductive StartupFatal (ε : Type) where
  | noMusicDir
  | checkingMusicDir (path : Str) (err : PathError ε)
  deriving DecidableEq, Repr

/-- The loop `for i, p := range confMusicPaths { confMusicPaths[i].path, err = validatePath(p.path) ... }`:
stops at the first root that fails. -/
def validateRoots {ε : Type} (fs : FileSys ε) : pathAliases → Except (StartupFatal ε) pathAliases
  | [] => .ok []
  | pa :: rest =>
    match validatePath fs pa.path with
    | .error e => .error (.checkingMusicDir pa.path e)
    | .ok q =>
      match validateRoots fs rest with
      | .error e => .error e
      | .ok rest' => .ok ({ pa with path := q } :: rest')

/-- The music-root section of `main`: an empty list is fatal, then every root is
validated and replaced by its absolute path. -/
def mainMusicPaths {ε : Type} (fs : FileSys ε) (confMusicPaths : pathAliases) :
    Except (StartupFatal ε) pathAliases :=
  if confMusicPaths.length = 0 then .error .noMusicDir
  else validateRoots fs confMusicPaths

/-- A small file system for the witnesses: only "/music" exists, every other
path fails with error 2, which is the "does not exist" error; `Abs` prefixes a
relative path with "/cwd/". -/
def demoFS : FileSys Nat where
  stat := fun p => if p = "/music".toList then none else some 2
  isNotExist := fun e => e == 2
  abs := fun p => if p.head? = some '/' then .ok p else .ok ("/cwd/".toList ++ p)

/-! ## `utils.First` -/

/-- The loop of `First`, carrying the variable `err` (the error of the last
`os.Stat`, initially `nil`). -/
def firstLoop {ε : Type} (stat : Str → Option ε) : List Str → Option ε → Str × Option ε
  | [], err => ([], err)
  | p :: rest, _ =>
    match stat p with
    | none => (p, none)
    | some e => firstLoop stat rest (some e)

/-- The function `First(path ...string) (string, error)`. -/
def First {ε : Type} (stat : Str → Option ε) (path : List Str) : Str × Option ε :=
  firstLoop stat path none

/-! ## `TaglibReader.CanRead` -/

/-- The function `unicode.ToLower` on one rune: the ASCII rule for ASCII runes,
the Unicode case table (a parameter) for the others. -/
def runeToLower (unicodeLower : Char → Char) (c : Char) : Char :=
  if c.toNat < 128 then
    (if 'A'.toNat ≤ c.toNat ∧ c.toNat ≤ 'Z'.toNat then Char.ofNat (c.toNat + 32) else c)
  else unicodeLower c

/-- The function `strings.ToLower`: every rune mapped through `unicode.ToLower`
(the ASCII-only fast path of the Go source computes the same string). -/
def ToLower (unicodeLower : Char → Char) (s : Str) : Str :=
  s.map (runeToLower unicodeLower)

/-- The loop of `filepath.Ext`, walking from the last character backwards:
`rev` is `path[:i+1]` reversed and `acc` is `path[i+1:]`. -/
def extLoop : Str → Str → Str
  | [], _ => []
  | c :: rev, acc =>
    if c = '/' then []
    else if c = '.' then c :: acc
    else extLoop rev (c :: acc)

/-- The function `filepath.Ext(path)` (with `/` as the path separator). -/
def Ext (path : Str) : Str := extLoop path.reverse []

/-- The extensions listed in the `switch` of `CanRead`. -/
def audioExts : List Str :=
  [".mp3".toList, ".flac".toList, ".aac".toList, ".m4a".toList, ".m4b".toList,
   ".ogg".toList, ".opus".toList, ".wma".toList, ".wav".toList, ".wv".toList,
   ".ape".toList]

/-- The method `TaglibReader.CanRead(absPath)`. -/
def CanRead (unicodeLower : Char → Char) (absPath : Str) : Bool :=
  let ext := ToLower unicodeLower (Ext absPath)
  if ext ∈ audioExts then true else false

/-- The final element of a path: the text after its last `/`. -/
def finalElem (p : Str) : Str := (p.reverse.takeWhile (· ≠ '/')).reverse

/-- The extension as the specification words it: the suffix of the final
element of the path starting at its last dot, empty when it has no dot. -/
def extSpec (p : Str) : Str :=
  let b := finalElem p
  if '.' ∈ b then '.' :: (b.reverse.takeWhile (· ≠ '.')).reverse else []

/-! ## `utils.HasPrefix` -/

/-- The position of the loop of `filepath.Clean` inside the path: at the start
of a path element, inside a real element that is being copied, or on the
second dot of a `..` element (which is skipped). -/
inductive CleanMode where
  | elem
  | copy
  | skip
  deriving DecidableEq, Repr

/-- The backtracking of `filepath.Clean` on a `..` element, after `out.w--`:
`for out.w > dotdot && !os.IsPathSeparator(out.index(out.w)) { out.w-- }`;
the argument and the result are `out.w`. -/
def cleanBacktrack (out : Str) (dotdot : Nat) : Nat → Nat
  | 0 => 0
  | w + 1 =>
    if w + 1 > dotdot ∧ out.get? (w + 1) ≠ some '/' then cleanBacktrack out dotdot w
    else w + 1

/-- The main loop of `filepath.Clean` (Go standard library, with `/` as the
separator): `rest` is `path[r:]`, `out` is the buffer written so far and
`dotdot` the index where `..` must stop. -/
def cleanLoop (rooted : Bool) : CleanMode → Str → Str → Nat → Str
  | _, [], out, _ => out
  | mode, c :: t, out, dotdot =>
    if mode = .skip then cleanLoop rooted .elem t out dotdot
    else if c = '/' then cleanLoop rooted .elem t out dotdot
    else if mode = .copy then cleanLoop rooted .copy t (out ++ [c]) dotdot
    else if c = '.' ∧ (t = [] ∨ t.head? = some '/') then
      cleanLoop rooted .elem t out dotdot
    else if c = '.' ∧ t.head? = some '.' ∧ (t.tail = [] ∨ t.tail.head? = some '/') then
      if out.length > dotdot then
        cleanLoop rooted .skip t (out.take (cleanBacktrack out dotdot (out.length - 1))) dotdot
      else if !rooted then
        let out1 := if out.length > 0 then out ++ ['/'] else out
        cleanLoop rooted .skip t (out1 ++ ['.', '.']) (out1.length + 2)
      else cleanLoop rooted .skip t out dotdot
    else
      let out1 :=
        if (rooted && out.length != 1) || (!rooted && out.length != 0) then out ++ ['/']
        else out
      cleanLoop rooted .copy t (out1 ++ [c]) dotdot

/-- The function `filepath.Clean(path)` (Go standard library, with `/` as the
separator). -/
def Clean (path : Str) : Str :=
  if path = [] then ['.']
  else
    let rooted : Bool := path.head? = some '/'
    let out :=
      if rooted then cleanLoop rooted .elem (path.drop 1) ['/'] 1
      else cleanLoop rooted .elem path [] 0
    if out.length = 0 then ['.'] else out

/-- The function `HasPrefix(p, prefix string) bool`:
`p == prefix || strings.HasPrefix(p, filepath.Clean(prefix)+string(filepath.Separator))`;
`clean` is `filepath.Clean`. -/
def HasPrefix (clean : Str → Str) (p pfx : Str) : Bool :=
  p = pfx || (clean pfx ++ ['/']).isPrefixOf p

/-! ## Subsonic middleware `withUser` -/

/-- Modelled from the spec: `db.User` is declared in the db package, whose
source is not available; the fields are the ones the handlers read and write. -/
structure User where
  ID : Int
  Name : Str
  Password : Str
  IsAdmin : Bool
  Avatar : Option (List Nat)
  deriving DecidableEq, Repr

/-- The credential parameters read by `withUser` with `params.Get`; a missing
parameter reads as the empty string. -/
structure AuthParams where
  u : Str
  p : Str
  t : Str
  s : Str
  deriving DecidableEq, Repr

/-- What `withUser` needs from outside: `dbc.GetUserByName`, the hex-encoded MD5
sum of a string, `hex.DecodeString` (its error dropped) and the `%q` quoting of
`fmt`. -/
structure AuthEnv where
  getUserByName : Str → Option User
  md5hex : Str → Str
  hexDecode : Str → Str
  quote : Str → Str

/-- What `withUser` does with a request: it either hands the error response
`spec.NewError(code, message)` to `writeResp` and returns, or calls the wrapped
handler `next` with the user in the context. -/
inductive AuthOutcome where
  | respError (code : Int) (message : Str)
  | next (user : User)
  deriving DecidableEq, Repr

/-- The function `checkCredsToken(password, token, salt string) bool`. -/
def checkCredsToken (env : AuthEnv) (password token salt : Str) : Bool :=
  let toHash := password ++ salt
  let expToken := env.md5hex toHash
  token = expToken

/-- The function `checkCredsBasic(password, given string) bool`. -/
def checkCredsBasic (env : AuthEnv) (password given : Str) : Bool :=
  let given :=
    if given.length ≥ 4 ∧ given.take 4 = "enc:".toList then env.hexDecode (given.drop 4)
    else given
  password = given

/-- The local variable `passwordAuth := token == "" && salt == ""` of `withUser`. -/
def passwordAuth (q : AuthParams) : Bool := q.t = [] && q.s = []

/-- The local variable `tokenAuth := password == ""` of `withUser`. -/
def tokenAuth (q : AuthParams) : Bool := q.p = []

/-- The credential check `withUser` selects: `checkCredsToken` when `tokenAuth`,
`checkCredsBasic` otherwise. -/
def credsOk (env : AuthEnv) (user : User) (q : AuthParams) : Bool :=
  if tokenAuth q then checkCredsToken env user.Password q.t q.s
  else checkCredsBasic env user.Password q.p

/-- The handler built by `withUser(dbc)(next)`. -/
def withUser (env : AuthEnv) (q : AuthParams) : AuthOutcome :=
  if tokenAuth q = passwordAuth q then
    .respError 10 "please provide `t` and `s`, or just `p`".toList
  else
    match env.getUserByName q.u with
    | none => .respError 40 ("invalid username ".toList ++ env.quote q.u)
    | some user =>
      if !credsOk env user q then .respError 40 "invalid password".toList
      else .next user

/-- An environment for the witnesses: the only user is "admin" with password
"secret"; the digest, the hex decoding and the quoting are stand-ins (the
digest of a string is the string between square brackets, the quoting puts it
between angle brackets). -/
def demoAuth : AuthEnv where
  getUserByName := fun n =>
    if n = "admin".toList then
      some { ID := 1, Name := "admin".toList, Password := "secret".toList, IsAdmin := true,
             Avatar := none }
    else none
  md5hex := fun x => ['['] ++ x ++ [']']
  hexDecode := fun x => x
  quote := fun x => ['<'] ++ x ++ ['>']

/-! ## Admin handlers built on `selectedUserIfAdmin` -/

/-- The parts of an admin request the handlers read: the `user` query
parameter, the authenticated user stored in the context under `CtxUser`, the
referer, the form values and the result of `getAvatarFile(r)`. -/
structure AdminRequest where
  queryUser : Str
  ctxUser : User
  referer : Str
  formUsername : Str
  formPasswordOne : Str
  formPasswordTwo : Str
  avatarFile : Except Str (List Nat)
  deriving DecidableEq

/-- What the admin handlers need from outside: `dbc.GetUserByName`, the error of
`dbc.Save(user)` and of `dbc.Delete(user)` (`none` is `nil`), `validateUsername`
and `validatePasswords`. -/
structure AdminEnv where
  getUserByName : Str → Option User
  saveErr : User → Option Str
  deleteErr : User → Option Str
  validateUsername : Str → Option Str
  validatePasswords : Str → Str → Option Str

/-- The admin `Response` struct, with the fields the handlers set; `data` is the
`SelectedUser` of the template data when template data is given. -/
structure Response where
  template : Str := []
  code : Int := 0
  err : Str := []
  redirect : Str := []
  flashN : List Str := []
  flashW : List Str := []
  data : Option (Option User) := none
  deriving DecidableEq, Repr

/-- A write issued to the store. -/
inductive StoreOp where
  | save (user : User)
  | delete (user : User)
  deriving DecidableEq, Repr

/-- The result of running a handler: its response and the writes it issued to
the store, or a nil-pointer panic (the selected user does not exist) after the
writes issued so far. -/
inductive HandlerResult where
  | done (resp : Response) (ops : List StoreOp)
  | nilDeref (ops : List StoreOp)
  deriving DecidableEq, Repr

/-- The writes issued by a handler run. -/
def HandlerResult.ops : HandlerResult → List StoreOp
  | .done _ ops => ops
  | .nilDeref ops => ops

/-- The function `selectedUserIfAdmin(c, r) (*db.User, error)`; the user
returned with a nil error may be nil. -/
def selectedUserIfAdmin (env : AdminEnv) (r : AdminRequest) : Except Str (Option User) :=
  let selectedUsername := r.queryUser
  if selectedUsername = [] then .error "please provide a username".toList
  else
    let user := r.ctxUser
    if !user.IsAdmin && user.Name != selectedUsername then
      .error "must be admin to perform actions for other users".toList
    else .ok (env.getUserByName selectedUsername)

/-- The handler `ServeChangeUsername`. -/
def ServeChangeUsername (env : AdminEnv) (r : AdminRequest) : HandlerResult :=
  match selectedUserIfAdmin env r with
  | .error err => .done { code := 400, err := err } []
  | .ok user => .done { template := "change_username.tmpl".toList, data := some user } []

/-- The handler `ServeChangeUsernameDo`. -/
def ServeChangeUsernameDo (env : AdminEnv) (r : AdminRequest) : HandlerResult :=
  match selectedUserIfAdmin env r with
  | .error err => .done { code := 400, err := err } []
  | .ok user =>
    let usernameNew := r.formUsername
    match env.validateUsername usernameNew with
    | some err => .done { redirect := r.referer, flashW := [err] } []
    | none =>
      match user with
      | none => .nilDeref []
      | some user =>
        let user := { user with Name := usernameNew }
        match env.saveErr user with
        | some err =>
          .done { redirect := r.referer, flashW := ["save username: ".toList ++ err] }
            [.save user]
        | none => .done { redirect := "/admin/home".toList } [.save user]

/-- The handler `ServeChangePassword`. -/
def ServeChangePassword (env : AdminEnv) (r : AdminRequest) : HandlerResult :=
  match selectedUserIfAdmin env r with
  | .error err => .done { code := 400, err := err } []
  | .ok user => .done { template := "change_password.tmpl".toList, data := some user } []

/-- The handler `ServeChangePasswordDo`. -/
def ServeChangePasswordDo (env : AdminEnv) (r : AdminRequest) : HandlerResult :=
  match selectedUserIfAdmin env r with
  | .error err => .done { code := 400, err := err } []
  | .ok user =>
    let passwordOne := r.formPasswordOne
    let passwordTwo := r.formPasswordTwo
    match env.validatePasswords passwordOne passwordTwo with
    | some err => .done { redirect := r.referer, flashW := [err] } []
    | none =>
      match user with
      | none => .nilDeref []
      | some user =>
        let user := { user with Password := passwordOne }
        match env.saveErr user with
        | some err =>
          .done { redirect := r.referer, flashW := ["save user: ".toList ++ err] } [.save user]
        | none => .done { redirect := "/admin/home".toList } [.save user]

/-- The handler `ServeChangeAvatar`. -/
def ServeChangeAvatar (env : AdminEnv) (r : AdminRequest) : HandlerResult :=
  match selectedUserIfAdmin env r with
  | .error err => .done { code := 400, err := err } []
  | .ok user => .done { template := "change_avatar.tmpl".toList, data := some user } []

/-- The handler `ServeChangeAvatarDo`. -/
def ServeChangeAvatarDo (env : AdminEnv) (r : AdminRequest) : HandlerResult :=
  match selectedUserIfAdmin env r with
  | .error err => .done { code := 400, err := err } []
  | .ok user =>
    match r.avatarFile with
    | .error err => .done { redirect := r.referer, flashW := [err] } []
    | .ok avatar =>
      match user with
      | none => .nilDeref []
      | some user =>
        let user := { user with Avatar := some avatar }
        match env.saveErr user with
        | some err =>
          .done { redirect := r.referer, flashW := ["save user: ".toList ++ err] } [.save user]
        | none =>
          .done { redirect := r.referer, flashN := ["avatar saved successfully".toList] }
            [.save user]

/-- The handler `ServeDeleteAvatarDo`. -/
def ServeDeleteAvatarDo (env : AdminEnv) (r : AdminRequest) : HandlerResult :=
  match selectedUserIfAdmin env r with
  | .error err => .done { code := 400, err := err } []
  | .ok none => .nilDeref []
  | .ok (some user) =>
    let user := { user with Avatar := none }
    match env.saveErr user with
    | some err =>
      .done { redirect := r.referer, flashW := ["save user: ".toList ++ err] } [.save user]
    | none =>
      .done { redirect := r.referer, flashN := ["avatar deleted successfully".toList] }
        [.save user]

/-- The handler `ServeDeleteUser`. -/
def ServeDeleteUser (env : AdminEnv) (r : AdminRequest) : HandlerResult :=
  match selectedUserIfAdmin env r with
  | .error err => .done { code := 400, err := err } []
  | .ok user => .done { template := "delete_user.tmpl".toList, data := some user } []

/-- The handler `ServeDeleteUserDo`. -/
def ServeDeleteUserDo (env : AdminEnv) (r : AdminRequest) : HandlerResult :=
  match selectedUserIfAdmin env r with
  | .error err => .done { code := 400, err := err } []
  | .ok none => .nilDeref []
  | .ok (some user) =>
    if user.IsAdmin then
      .done { redirect := "/admin/home".toList,
              flashW := ["can't delete the admin user".toList] } []
    else
      match env.deleteErr user with
      | some err =>
        .done { redirect := r.referer, flashW := ["delete user: ".toList ++ err] }
          [.delete user]
      | none => .done { redirect := "/admin/home".toList } [.delete user]

/-- The user "admin" of the witnesses. -/
def demoAdmin : User :=
  { ID := 1, Name := "admin".toList, Password := "secret".toList, IsAdmin := true,
    Avatar := none }

/-- The user "bob" of the witnesses, not an admin. -/
def demoBob : User :=
  { ID := 2, Name := "bob".toList, Password := "hunter2".toList, IsAdmin := false,
    Avatar := none }

/-- An admin environment for the witnesses: the users are `demoAdmin` and
`demoBob`, store writes succeed and every form value is valid. -/
def demoAdminEnv : AdminEnv where
  getUserByName := fun n =>
    if n = demoAdmin.Name then some demoAdmin
    else if n = demoBob.Name then some demoBob
    else none
  saveErr := fun _ => none
  deleteErr := fun _ => none
  validateUsername := fun _ => none
  validatePasswords := fun _ _ => none

/-- A request of the witnesses: `ctxUser` asks to act on the user named
`queryUser`. -/
def demoRequest (ctxUser : User) (queryUser : Str) : AdminRequest :=
  { queryUser := queryUser, ctxUser := ctxUser, referer := "/admin/home".toList,
    formUsername := "eve".toList, formPasswordOne := "pw".toList,
    formPasswordTwo := "pw".toList, avatarFile := .ok [1, 2, 3] }

/-! ## Subsonic responses, `ServeGetPlayQueue` and `writeResp` -/

/-- The kinds of `specid.ID` the handlers switch on. -/
inductive IDType where
  | Artist
  | Album
  | Track
  | Podcast
  | PodcastEpisode
  | Playlist
  deriving DecidableEq, Repr

/-- The struct `specid.ID{Type, Value}` (the field `Type` is written `Type_`). -/
structure SpecID where
  Type_ : IDType
  Value : Int
  deriving DecidableEq, Repr

/-- Modelled from the spec: `db.Track` is declared in the db package, whose
source is not available; the fields are the ones the handlers read. -/
structure Track where
  ID : Int
  TagTitle : Str
  TagTrackArtist : Str
  TagLyrics : Str
  deriving DecidableEq, Repr

/-- The zero value `var track db.Track`. -/
def Track.zero : Track := { ID := 0, TagTitle := [], TagTrackArtist := [], TagLyrics := [] }

/-- Modelled from the spec: `db.PodcastEpisode` is declared in the db package,
whose source is not available; only the primary key and a title are kept. -/
structure PodcastEpisode where
  ID : Int
  Title : Str
  deriving DecidableEq, Repr

/-- The zero value `var pe db.PodcastEpisode`. -/
def PodcastEpisode.zero : PodcastEpisode := { ID := 0, Title := [] }

/-- Modelled from the spec: `db.PlayQueue` is declared in the db package, whose
source is not available; `Items` is what `queue.GetItems()` returns and the
other fields are the ones copied into the response. -/
structure PlayQueue where
  Items : List SpecID
  Position : Int
  ChangedBy : Str
  deriving DecidableEq, Repr

/-- The zero value `var queue db.PlayQueue`. -/
def PlayQueue.zero : PlayQueue := { Items := [], Position := 0, ChangedBy := [] }

/-- The outcome of a gorm query into one row: found (nil error), the error
`gorm.ErrRecordNotFound`, or any other error. -/
inductive FindResult (α : Type) where
  | found (row : α)
  | notFound
  | failed (err : Str)
  deriving DecidableEq, Repr

/-- The destination variable after the query: the row when found, else the
zero value it was declared with. -/
def FindResult.row {α : Type} (zero : α) : FindResult α → α
  | .found r => r
  | _ => zero

/-- An entry of the play queue list: `spec.NewTCTrackByFolder(&track, track.Album)`
or `spec.NewTCPodcastEpisode(&pe)`, with its `TranscodeMeta` set. -/
inductive TrackChild where
  | ofTrack (track : Track) (transcodeMeta : Str)
  | ofPodcastEpisode (pe : PodcastEpisode) (transcodeMeta : Str)
  deriving DecidableEq, Repr

/-- The struct `spec.PlayQueue` as `ServeGetPlayQueue` fills it. -/
structure SpecPlayQueue where
  Username : Str
  Position : Int
  ChangedBy : Str
  List : List TrackChild
  deriving DecidableEq, Repr

/-- The struct `spec.Error{Code, Message}`. -/
structure SpecError where
  Code : Int
  Message : Str
  deriving DecidableEq, Repr

/-- The struct `spec.Lyrics{Artist, Title, Value}`. -/
structure SpecLyrics where
  Artist : Str
  Title : Str
  Value : Str
  deriving DecidableEq, Repr

/-- Modelled from the spec: `spec.Response` is declared in the spec package,
whose source is not available; the fields are the ones these handlers set. -/
structure SpecResponse where
  Error : Option SpecError := none
  PlayQueue : Option SpecPlayQueue := none
  Lyrics : Option SpecLyrics := none
  deriving DecidableEq, Repr

/-- The constructor `spec.NewResponse()`. -/
def NewResponse : SpecResponse := {}

/-- The constructor `spec.NewError(code, message)`, the message already
formatted. -/
def NewError (code : Int) (message : Str) : SpecResponse :=
  { Error := some { Code := code, Message := message } }

/-- The queries `ServeGetPlayQueue` runs for one user: the play queue of the
user, a track by id and a podcast episode by id. -/
structure PlayQueueDB where
  findQueue : FindResult PlayQueue
  findTrack : Int → FindResult Track
  findEpisode : Int → FindResult PodcastEpisode

/-- The loop `for _, id := range trackIDs` of `ServeGetPlayQueue`: `.error` is
the early `return spec.NewError(...)`, `.ok` the list after the loop. -/
def playQueueLoop (db : PlayQueueDB) (transcodeMeta : Str) :
    List SpecID → List TrackChild → Except SpecResponse (List TrackChild)
  | [], list => .ok list
  | id :: rest, list =>
    match id.Type_ with
    | .Track =>
      match db.findTrack id.Value with
      | .failed _ => .error (NewError 0 "error finding track".toList)
      | res =>
        let track := res.row Track.zero
        if track.ID ≠ 0 then
          playQueueLoop db transcodeMeta rest (list ++ [.ofTrack track transcodeMeta])
        else playQueueLoop db transcodeMeta rest list
    | .PodcastEpisode =>
      match db.findEpisode id.Value with
      | .failed _ => .error (NewError 0 "error finding podcast episode".toList)
      | res =>
        let pe := res.row PodcastEpisode.zero
        if pe.ID ≠ 0 then
          playQueueLoop db transcodeMeta rest (list ++ [.ofPodcastEpisode pe transcodeMeta])
        else playQueueLoop db transcodeMeta rest list
    | _ => playQueueLoop db transcodeMeta rest list

/-- The handler `ServeGetPlayQueue` for the user named `username`;
`transcodeMeta` is the result of `streamGetTranscodeMeta`. -/
def ServeGetPlayQueue (db : PlayQueueDB) (username transcodeMeta : Str) : SpecResponse :=
  match db.findQueue with
  | .notFound => NewResponse
  | res =>
    let queue := res.row PlayQueue.zero
    match playQueueLoop db transcodeMeta queue.Items [] with
    | .error resp => resp
    | .ok list =>
      { PlayQueue := some { Username := username, Position := queue.Position,
                            ChangedBy := queue.ChangedBy, List := list } }

/-- A state of the store: the track rows, the podcast episode rows and the
saved play queue of the user. -/
structure StoreState where
  tracks : List Track
  episodes : List PodcastEpisode
  queue : PlayQueue

/-- The queries answered from a store state: a row is found when the table has
a row with that primary key, and reported as not found otherwise. -/
def StoreState.db (st : StoreState) : PlayQueueDB where
  findQueue := .found st.queue
  findTrack := fun id =>
    match st.tracks.find? (fun t => t.ID = id) with
    | some t => .found t
    | none => .notFound
  findEpisode := fun id =>
    match st.episodes.find? (fun e => e.ID = id) with
    | some e => .found e
    | none => .notFound

/-- The play queue list as the specification words it: the queue items, in
queue order, whose track or podcast episode row exists in the store state. -/
def liveQueueItems (st : StoreState) (transcodeMeta : Str) : List TrackChild :=
  st.queue.Items.filterMap fun id =>
    match id.Type_ with
    | .Track => (st.tracks.find? (fun t => t.ID = id.Value)).map (.ofTrack · transcodeMeta)
    | .PodcastEpisode =>
      (st.episodes.find? (fun e => e.ID = id.Value)).map (.ofPodcastEpisode · transcodeMeta)
    | _ => none

/-- The value handed to `json.Marshal` by `writeResp`: the response under a
top-level key (the anonymous struct with the tag `json:"subsonic-response"`),
or a response on its own. -/
inductive JsonValue where
  | underKey (key : Str) (resp : SpecResponse)
  | bare (resp : SpecResponse)
  deriving DecidableEq, Repr

/-- A call on the `http.ResponseWriter`. -/
inductive WriterOp where
  | setHeader (key value : Str)
  | write (data : List Nat)
  deriving DecidableEq, Repr

/-- What `writeResp` needs from outside: `json.Marshal` and the error of
`w.Write(data)` (`none` is `nil`). -/
structure WriteEnv where
  marshal : JsonValue → Except Str (List Nat)
  writeErr : List Nat → Option Str

/-- The function `writeResp(w, r, resp) error`: the calls made on `w` and the
returned error (`none` is `nil`); `format` is the `f` parameter of the request
and `resp = none` is the nil response. -/
def writeResp (env : WriteEnv) (format : Str) (resp : Option SpecResponse) :
    List WriterOp × Option Str :=
  match resp with
  | none => ([], none)
  | some resp =>
    if format ≠ [] ∧ format ≠ "json".toList then
      let errorResp := NewError 0
        ("unsupported format '".toList ++ format ++ "', only json format is supported".toList)
      let hdr := WriterOp.setHeader "Content-Type".toList "application/json".toList
      match env.marshal (.bare errorResp) with
      | .error err => ([hdr], some ("marshal error response: ".toList ++ err))
      | .ok data =>
        match env.writeErr data with
        | some err => ([hdr, .write data], some ("write error response: ".toList ++ err))
        | none => ([hdr, .write data], none)
    else
      let res := JsonValue.underKey "subsonic-response".toList resp
      let hdr := WriterOp.setHeader "Content-Type".toList "application/json".toList
      match env.marshal res with
      | .error err => ([hdr], some ("marshal to json: ".toList ++ err))
      | .ok data =>
        match env.writeErr data with
        | some err => ([hdr, .write data], some ("write response: ".toList ++ err))
        | none => ([hdr, .write data], none)

/-- A store state for the witnesses: tracks 1 and 3, episode 7, and a queue
naming track 1, track 2 (deleted), episode 7, album 5 and track 3. -/
def demoStore : StoreState where
  tracks := [{ ID := 1, TagTitle := ['a'], TagTrackArtist := ['x'], TagLyrics := [] },
             { ID := 3, TagTitle := ['c'], TagTrackArtist := ['x'], TagLyrics := [] }]
  episodes := [{ ID := 7, Title := ['e'] }]
  queue := { Items := [⟨.Track, 1⟩, ⟨.Track, 2⟩, ⟨.PodcastEpisode, 7⟩, ⟨.Album, 5⟩, ⟨.Track, 3⟩],
             Position := 0, ChangedBy := ['c'] }

/-- A writer environment for the witnesses: the marshalled bytes only tell the
two shapes apart (1 for a response under a key, 0 for a bare one) and writes
succeed. -/
def demoWriteEnv : WriteEnv where
  marshal := fun v =>
    match v with
    | .underKey _ _ => .ok [1]
    | .bare _ => .ok [0]
  writeErr := fun _ => none

/-! ## `ServeGetCoverArt`: the size of the encoded image -/

/-- The constant `coverDefaultSize`. -/
def coverDefaultSize : Int := 600

/-- The size of the image returned by `imaging.Fit(img, width, height, filter)`
(library `disintegration/imaging`) for a source of size `srcW` x `srcH`: the
empty image for a non-positive bound or source, the source size when it
already fits, and otherwise the size computed by the resampling branch
(floating point, a parameter). -/
def fitSize (resample : Int → Int → Int → Int → Int × Int) (srcW srcH width height : Int) :
    Int × Int :=
  if width ≤ 0 ∨ height ≤ 0 then (0, 0)
  else if srcW ≤ 0 ∨ srcH ≤ 0 then (0, 0)
  else if srcW ≤ width ∧ srcH ≤ height then (srcW, srcH)
  else resample srcW srcH width height

/-- The local variable `minSize := min(size, max(img.Bounds().Dx(), img.Bounds().Dy()))`
of `ServeGetCoverArt`. -/
def coverMinSize (size w h : Int) : Int := min size (max w h)

/-- The size of the image `ServeGetCoverArt` encodes, for a decoded image of
size `w` x `h`: `if minSize != size { img = imaging.Fit(img, minSize, minSize, ...) }`. -/
def coverEncodedSize (resample : Int → Int → Int → Int → Int × Int) (size w h : Int) :
    Int × Int :=
  let minSize := coverMinSize size w h
  if minSize ≠ size then fitSize resample w h minSize minSize else (w, h)

/-- The handler `ServeGetCoverArt` up to the encoding: `idParam` is the `id`
parameter when `params.GetID` accepts it, `sizeParam` the `size` parameter
when it is given and parses as an integer (`params.GetOrInt`), `decoded` the
size of the image decoded from the cover of an id (or the error response for a
failing `coverFor` or `image.Decode`); `.error` is the error response
returned, `.ok` the size of the image encoded. -/
def ServeGetCoverArt (resample : Int → Int → Int → Int → Int × Int) (idParam : Option SpecID)
    (sizeParam : Option Int) (decoded : SpecID → Except SpecResponse (Int × Int)) :
    Except SpecResponse (Int × Int) :=
  match idParam with
  | none => .error (NewError 10 "please provide an `id` parameter".toList)
  | some id =>
    let size := sizeParam.getD coverDefaultSize
    if size ≤ 0 then .error (NewError 0 "invalid size".toList)
    else
      match decoded id with
      | .error resp => .error resp
      | .ok (w, h) => .ok (coverEncodedSize resample size w h)

/-- A stand-in for the resampling branch of `imaging.Fit` in the witnesses: it
scales to the bound on both sides. -/
def demoResample : Int → Int → Int → Int → Int × Int :=
  fun _ _ width height => (width, height)

/-! ## `ServeGetLyrics` -/

/-- The struct `spec.Lyric{Start, Value}`. -/
structure Lyric where
  Start : Option Int
  Value : Str
  deriving DecidableEq, Repr

/-- The struct `spec.StructuredLyrics`. -/
structure StructuredLyrics where
  Lang : Str
  Synced : Bool
  Lines : List Lyric
  DisplayArtist : Str
  DisplayTitle : Str
  deriving DecidableEq, Repr

/-- The three sources of `lyricsAll` for a track, each `(*spec.StructuredLyrics,
error)`: `lyricsFromTags`, `lyricsFromFile` (the .lrc file) and
`lyricsFromFileUnsynced` (the .txt file). -/
structure LyricsSources where
  fromTags : Track → Except Str (Option StructuredLyrics)
  fromFile : Track → Except Str (Option StructuredLyrics)
  fromFileUnsynced : Track → Except Str (Option StructuredLyrics)

/-- The function `lyricsAll(track) ([]*spec.StructuredLyrics, error)`. -/
def lyricsAll (src : LyricsSources) (track : Track) : Except Str (List StructuredLyrics) :=
  let r : List StructuredLyrics := []
  match src.fromTags track with
  | .error err => .error ("from tags: ".toList ++ err)
  | .ok fromTags =>
    let r := match fromTags with
      | some l => r ++ [l]
      | none => r
    match src.fromFile track with
    | .error err => .error ("from file: ".toList ++ err)
    | .ok fromFile =>
      let r := match fromFile with
        | some l => r ++ [l]
        | none => r
      match src.fromFileUnsynced track with
      | .error err => .error ("from file unsynced: ".toList ++ err)
      | .ok fromFileUnsynced =>
        let r := match fromFileUnsynced with
          | some l => r ++ [l]
          | none => r
        .ok r

/-- The inner loop of `insertionSortCmpFunc` (Go standard library, package
slices) for the element `x = data[i]`: `for j := i; j > a && cmp(data[j], data[j-1]) < 0; j--`
swaps `x` towards the front; `rev` is the part `data[a:i]` before `x`,
reversed, and the result is `data[a:i+1]` after the loop, reversed. -/
def insertionStep {α : Type} (cmp : α → α → Int) (x : α) : List α → List α
  | [] => [x]
  | y :: rev => if cmp x y < 0 then y :: insertionStep cmp x rev else x :: y :: rev

/-- The function `insertionSortCmpFunc(data, 0, len(data), cmp)`. -/
def insertionSortCmpFunc {α : Type} (cmp : α → α → Int) (data : List α) : List α :=
  (data.foldl (fun rev x => insertionStep cmp x rev) []).reverse

/-- The function `slices.SortFunc(data, cmp)`: insertion sort up to twelve
elements; `pdq` is the pattern-defeating quicksort it runs on longer slices. -/
def SortFunc {α : Type} (pdq : (α → α → Int) → List α → List α) (cmp : α → α → Int)
    (data : List α) : List α :=
  if data.length ≤ 12 then insertionSortCmpFunc cmp data else pdq cmp data

/-- The comparison `ServeGetLyrics` sorts with:
`if a.Synced { return +1 }; return -1`. -/
def lyricsCmp (a _b : StructuredLyrics) : Int := if a.Synced then 1 else -1

/-- The function `strings.Join(elems, sep)`. -/
def Join : List Str → Str → Str
  | [], _ => []
  | [a], _ => a
  | a :: b :: rest, sep => a ++ sep ++ Join (b :: rest) sep

/-- The part of `ServeGetLyrics` after `lyricsAll` returned `lyrics` with a nil
error: the `Value` put in the response. -/
def lyricsValue (pdq : (StructuredLyrics → StructuredLyrics → Int) → List StructuredLyrics →
    List StructuredLyrics) (lyrics : List StructuredLyrics) : Str :=
  if lyrics.length = 0 then []
  else
    match SortFunc pdq lyricsCmp lyrics with
    | [] => []
    | lyric :: _ => Join (lyric.Lines.map (·.Value)) ['\n']

/-- The handler `ServeGetLyrics`: `found` is the outcome of the track query by
artist and title. -/
def ServeGetLyrics (pdq : (StructuredLyrics → StructuredLyrics → Int) → List StructuredLyrics →
    List StructuredLyrics) (src : LyricsSources) (found : FindResult Track) : SpecResponse :=
  match found with
  | .notFound => NewError 70 "couldn't find a track with that id".toList
  | .failed err => NewError 0 ("lyrics: ".toList ++ err)
  | .found track =>
    match lyricsAll src track with
    | .error err => NewError 0 ("get lyrics: ".toList ++ err)
    | .ok lyrics =>
      { Lyrics := some { Artist := track.TagTrackArtist, Title := track.TagTitle,
                         Value := lyricsValue pdq lyrics } }

/-- Synced lyrics from the tags, for the witnesses. -/
def demoTagLyrics : StructuredLyrics :=
  { Lang := "xxx".toList, Synced := true, Lines := [⟨some 0, ['t']⟩], DisplayArtist := [],
    DisplayTitle := [] }

/-- Synced lyrics from the .lrc file, for the witnesses. -/
def demoLrcLyrics : StructuredLyrics :=
  { Lang := "xxx".toList, Synced := true, Lines := [⟨some 0, ['l']⟩], DisplayArtist := [],
    DisplayTitle := [] }

/-- Unsynced lyrics from the .txt file, for the witnesses. -/
def demoTxtLyrics : StructuredLyrics :=
  { Lang := "xxx".toList, Synced := false, Lines := [⟨none, ['a']⟩, ⟨none, ['b']⟩],
    DisplayArtist := [], DisplayTitle := [] }

/-- Lyrics sources of the witnesses: all three sources have lyrics. -/
def demoSources : LyricsSources where
  fromTags := fun _ => .ok (some demoTagLyrics)
  fromFile := fun _ => .ok (some demoLrcLyrics)
  fromFileUnsynced := fun _ => .ok (some demoTxtLyrics)

/-! ## `withUser` together with `writeResp` -/

/-- What the handler built by `withUser` does with a request, on the wire: the
calls `writeResp` makes on the `http.ResponseWriter` for the error response it
is given (its returned error is dropped), or the call of the wrapped handler
`next` with the user in the context. -/
inductive ServedOutcome where
  | wrote (ops : List WriterOp)
  | next (user : User)
  deriving DecidableEq, Repr

/-- The handler built by `withUser(dbc)(next)` with its calls
`_ = writeResp(w, r, spec.NewError(code, message))` carried out; `format` is the
`f` parameter of the request. -/
def withUserServe (env : AuthEnv) (wenv : WriteEnv) (format : Str) (q : AuthParams) :
    ServedOutcome :=
  match withUser env q with
  | .respError code message => .wrote (writeResp wenv format (some (NewError code message))).1
  | .next user => .next user

/-- The error code of a response as a number, 0 when it has no error. -/
def responseCode (resp : SpecResponse) : Nat :=
  match resp.Error with
  | some e => e.Code.toNat
  | none => 0

/-- A writer environment for the witnesses that shows the error code: the
marshalled bytes are 1 (under a key) or 0 (bare) followed by the error code of
the response; writes succeed. -/
def demoCodeWriteEnv : WriteEnv where
  marshal := fun v =>
    match v with
    | .underKey _ resp => .ok [1, responseCode resp]
    | .bare resp => .ok [0, responseCode resp]
  writeErr := fun _ => none

/-! ## Lemmas on `index` and `cut` -/

theorem index_append_sep (sep a b : Str) (hsep : sep ≠ [])
    (hfirst : ¬ sep <:+: a ++ sep.dropLast) :
    index (a ++ sep ++ b) sep = some a.length := by
  induction a with
  | nil =>
    cases sep with
    | nil => exact absurd rfl hsep
    | cons c t =>
      have h : (c :: t).isPrefixOf (c :: t ++ b) = true :=
        List.isPrefixOf_iff_prefix.mpr (List.prefix_append _ _)
      simp only [List.nil_append, index, List.cons_append]
      rw [List.cons_append] at h
      simp [h]
  | cons x a ih =>
    have hnot : sep.isPrefixOf (x :: a ++ sep ++ b) = false := by
      by_contra hc
      have hp : sep <+: x :: a ++ sep ++ b :=
        List.isPrefixOf_iff_prefix.mp (by simpa using hc)
      have hq : (x :: a) ++ sep.dropLast <+: x :: a ++ sep ++ b := by
        have : x :: a ++ sep ++ b = ((x :: a) ++ sep.dropLast) ++ ([sep.getLast hsep] ++ b) := by
          conv_lhs => rw [← List.dropLast_append_getLast hsep]
          simp
        rw [this]
        exact List.prefix_append _ _
      have hlen : sep.length ≤ ((x :: a) ++ sep.dropLast).length := by
        have : 0 < sep.length := List.length_pos.mpr hsep
        simp only [List.length_append, List.length_cons, List.length_dropLast]
        omega
      exact hfirst (List.prefix_of_prefix_length_le hp hq hlen).isInfix
    have hrec : ¬ sep <:+: a ++ sep.dropLast := by
      intro h
      apply hfirst
      obtain ⟨u, v, huv⟩ := h
      exact ⟨x :: u, v, by simp [← huv]⟩
    have := ih hrec
    simp only [List.cons_append, index] at hnot ⊢
    simp only [List.append_assoc] at this hnot ⊢
    simp [hnot, this]

theorem index_none_of_not_infix (sep s : Str) (h : ¬ sep <:+: s) : index s sep = none := by
  induction s with
  | nil =>
    have : sep.isPrefixOf [] = false := by
      by_contra hc
      exact h (List.isPrefixOf_iff_prefix.mp (by simpa using hc)).isInfix
    simp [index, this]
  | cons c t ih =>
    have h1 : sep.isPrefixOf (c :: t) = false := by
      by_contra hc
      exact h (List.isPrefixOf_iff_prefix.mp (by simpa using hc)).isInfix
    have h2 : ¬ sep <:+: t := by
      intro ⟨u, v, huv⟩
      exact h ⟨c :: u, v, by simp [← huv]⟩
    simp [index, h1, ih h2]

theorem index_some_spec (sep : Str) : ∀ (s : Str) (i : Nat), index s sep = some i →
    s = s.take i ++ sep ++ s.drop (i + sep.length) := by
  intro s
  induction s with
  | nil =>
    intro i h
    simp only [index] at h
    split_ifs at h with hp
    have : sep = [] := List.prefix_nil.mp (List.isPrefixOf_iff_prefix.mp hp)
    simp [this]
  | cons c t ih =>
    intro i h
    simp only [index] at h
    split_ifs at h with hp
    · obtain ⟨r, hr⟩ := List.isPrefixOf_iff_prefix.mp hp
      cases h
      simp only [List.take_zero, List.nil_append, Nat.zero_add]
      conv_lhs => rw [← hr]
      conv_rhs => rw [← hr]
      simp
    · cases hj : index t sep with
      | none => simp [hj] at h
      | some j =>
        simp only [hj, Option.map_some', Option.some.injEq] at h
        subst h
        have := ih j hj
        simp only [List.take_succ_cons, List.cons_append]
        rw [show j + 1 + sep.length = (j + sep.length) + 1 by omega, List.drop_succ_cons]
        simpa using this

theorem cut_append_sep (sep a b : Str) (hsep : sep ≠ [])
    (hfirst : ¬ sep <:+: a ++ sep.dropLast) :
    cut (a ++ sep ++ b) sep = (a, b, true) := by
  simp only [cut, index_append_sep sep a b hsep hfirst]
  simp [List.take_append_eq_append_take, List.drop_append_eq_append_drop]

theorem cut_not_infix (sep s : Str) (h : ¬ sep <:+: s) : cut s sep = (s, [], false) := by
  simp [cut, index_none_of_not_infix sep s h]

theorem cut_spec (sep s : Str) :
    ((cut s sep).2.2 = true ∧ s = (cut s sep).1 ++ sep ++ (cut s sep).2.1) ∨
    ((cut s sep).2.2 = false ∧ s = (cut s sep).1 ∧ (cut s sep).2.1 = []) := by
  cases h : index s sep with
  | none => right; simp [cut, h]
  | some i =>
    left
    simp only [cut, h, true_and]
    exact index_some_spec sep s i h

/-! ## Lemmas on `multiValueSetting.Set` and `parseFlag` -/

theorem parseFlag_induction (P : multiValueSetting → Prop) (h0 : P multiValueSetting.zero)
    (hstep : ∀ m v, P m → P (m.Set v).1) (values : List Str) : P (parseFlag values) := by
  unfold parseFlag
  generalize multiValueSetting.zero = init at h0
  induction values generalizing init with
  | nil => simpa using h0
  | cons v vs ih =>
    simp only [List.foldl_cons]
    exact ih _ (hstep _ _ h0)

theorem Set_delim_nonempty (m : multiValueSetting) (v : Str)
    (h : m.Mode = .Delim → m.Delim ≠ []) :
    (m.Set v).1.Mode = .Delim → (m.Set v).1.Delim ≠ [] := by
  simp only [multiValueSetting.Set]
  split_ifs <;> simp_all

theorem Set_none_empty (m : multiValueSetting) (v : Str)
    (h : m.Mode = .None → m.Delim = []) :
    (m.Set v).1.Mode = .None → (m.Set v).1.Delim = [] := by
  simp only [multiValueSetting.Set]
  split_ifs <;> simp_all

theorem parseFlag_delim_nonempty (values : List Str) :
    (parseFlag values).Mode = .Delim → (parseFlag values).Delim ≠ [] :=
  parseFlag_induction (fun m => m.Mode = .Delim → m.Delim ≠ [])
    (by simp [multiValueSetting.zero]) Set_delim_nonempty values

theorem parseFlag_none_empty (values : List Str) :
    (parseFlag values).Mode = .None → (parseFlag values).Delim = [] :=
  parseFlag_induction (fun m => m.Mode = .None → m.Delim = [])
    (by simp [multiValueSetting.zero]) Set_none_empty values

/-! ## Claims on the multi-value flags -/

/-- C1: `multiValueSetting.Set` rejects delimiter mode without a delimiter. A
value whose text before the first space is "delim" and whose text after it is
empty is "delim" or "delim ", and `Set` returns the no-delimiter error on it
with the receiver unchanged; on "delim " followed by a non-empty `d`, `Set`
returns no error and the receiver becomes Mode = Delim, Delim = `d`. -/
theorem C1_Set_delim_requires_delimiter (mvs : multiValueSetting) :
    (∀ value : Str, (cut value [' ']).1 = "delim".toList → (cut value [' ']).2.1 = [] →
      (value = "delim".toList ∨ value = "delim ".toList) ∧
        mvs.Set value = (mvs, some SetError.noDelimiter)) ∧
    (∀ d : Str, d ≠ [] →
      mvs.Set ("delim ".toList ++ d) = ({ Mode := .Delim, Delim := d }, none)) := by
  constructor
  · intro value h1 h2
    constructor
    · rcases cut_spec [' '] value with ⟨_, hv⟩ | ⟨_, hv, _⟩
      · right; rw [hv, h1, h2]; rfl
      · left; rw [hv, h1]
    · have h1' : (cut value [' ']).1 = ['d', 'e', 'l', 'i', 'm'] := h1
      simp [multiValueSetting.Set, h1', h2]
  · intro d hd
    have hc : cut ("delim ".toList ++ d) [' '] = ("delim".toList, d, true) := by
      have := cut_append_sep [' '] "delim".toList d (by decide) (by decide)
      simpa using this
    have hc1 : (cut ("delim ".toList ++ d) [' ']).1 = ['d', 'e', 'l', 'i', 'm'] := by
      rw [hc]; rfl
    have hc2 : (cut ("delim ".toList ++ d) [' ']).2.1 = d := by rw [hc]
    simp only [multiValueSetting.Set, hc1, hc2]
    simp [hd]

/-- Witness for C1 at the values "delim " and "delim ;" on the zero setting. -/
theorem C1_Set_delim_requires_delimiter_witness :
    (cut "delim ".toList [' ']).1 = "delim".toList ∧ (cut "delim ".toList [' ']).2.1 = [] ∧
    multiValueSetting.zero.Set "delim ".toList
      = (multiValueSetting.zero, some SetError.noDelimiter) ∧
    [';'] ≠ ([] : Str) ∧
    multiValueSetting.zero.Set ("delim ".toList ++ [';'])
      = ({ Mode := .Delim, Delim := [';'] }, none) :=
  ⟨by decide, by decide,
   ((C1_Set_delim_requires_delimiter multiValueSetting.zero).1 "delim ".toList
      (by decide) (by decide)).2,
   by decide,
   (C1_Set_delim_requires_delimiter multiValueSetting.zero).2 [';'] (by decide)⟩

/-- C2: when the track-artist mode and the album-artist mode are both set (not
None) and differ, the multi-value section of `main` aborts with the panic and
no settings reach `scanner.New`. -/
theorem C2_differing_artist_modes_panic (split : Str)
    (genre artist albumArtist : multiValueSetting)
    (ha : artist.Mode ≠ .None) (haa : albumArtist.Mode ≠ .None)
    (hne : artist.Mode ≠ albumArtist.Mode) :
    mainMultiValue split genre artist albumArtist = .error .differingArtistModes := by
  have _ := haa
  simp [mainMultiValue, artistDefault, ha, hne]

/-- Witness for C2: artist "multi", album artist "delim ;". -/
theorem C2_differing_artist_modes_panic_witness :
    (parseFlag ["multi".toList]).Mode ≠ .None ∧
    (parseFlag ["delim ;".toList]).Mode ≠ .None ∧
    (parseFlag ["multi".toList]).Mode ≠ (parseFlag ["delim ;".toList]).Mode ∧
    mainMultiValue [] multiValueSetting.zero (parseFlag ["multi".toList])
      (parseFlag ["delim ;".toList]) = .error .differingArtistModes :=
  ⟨by decide, by decide, by decide,
   C2_differing_artist_modes_panic [] multiValueSetting.zero (parseFlag ["multi".toList])
     (parseFlag ["delim ;".toList]) (by decide) (by decide) (by decide)⟩

/-- C3, as stated, fails: with only the track-artist flag set ("multi") and the
album-artist flag left unset, nothing is defaulted and `main` panics. -/
theorem C3_counterexample_artist_only :
    (parseFlag ["multi".toList]).Mode ≠ .None ∧ (parseFlag []).Mode = .None ∧
    mainMultiValue [] (parseFlag []) (parseFlag ["multi".toList]) (parseFlag [])
      = .error .differingArtistModes := by
  decide

/-- C3, amended: when the track-artist mode is None and the album-artist mode is
set, the track-artist setting handed to `scanner.New` has the mode and the
delimiter of the album-artist one and the consistency check passes; when the
track-artist mode is set and the album-artist mode is None, nothing is
defaulted and `main` panics. -/
theorem C3_artist_defaults_from_album_artist (split : Str)
    (genre artist albumArtist : multiValueSetting) :
    (artist.Mode = .None → albumArtist.Mode ≠ .None →
      mainMultiValue split genre artist albumArtist
        = .ok { Genre := genreSplitOverride split genre,
                Artist := { Mode := albumArtist.Mode, Delim := albumArtist.Delim },
                AlbumArtist := albumArtist }) ∧
    (artist.Mode ≠ .None → albumArtist.Mode = .None →
      mainMultiValue split genre artist albumArtist = .error .differingArtistModes) := by
  obtain ⟨m, d⟩ := albumArtist
  constructor
  · intro ha haa
    cases m <;> simp_all [mainMultiValue, artistDefault, MultiValueMode.toNat]
  · intro ha haa
    simp_all [mainMultiValue, artistDefault, MultiValueMode.toNat]

/-- Witness for C3 (amended): album artist "delim ;" alone, and artist "multi"
alone. -/
theorem C3_artist_defaults_from_album_artist_witness :
    ((parseFlag []).Mode = .None ∧ (parseFlag ["delim ;".toList]).Mode ≠ .None ∧
      mainMultiValue [] (parseFlag []) (parseFlag []) (parseFlag ["delim ;".toList])
        = .ok { Genre := genreSplitOverride [] (parseFlag []),
                Artist := { Mode := (parseFlag ["delim ;".toList]).Mode,
                            Delim := (parseFlag ["delim ;".toList]).Delim },
                AlbumArtist := parseFlag ["delim ;".toList] }) ∧
    ((parseFlag ["multi".toList]).Mode ≠ .None ∧ (parseFlag []).Mode = .None ∧
      mainMultiValue [] (parseFlag []) (parseFlag ["multi".toList]) (parseFlag [])
        = .error .differingArtistModes) :=
  ⟨⟨by decide, by decide,
    (C3_artist_defaults_from_album_artist [] (parseFlag []) (parseFlag [])
      (parseFlag ["delim ;".toList])).1 (by decide) (by decide)⟩,
   ⟨by decide, by decide,
    (C3_artist_defaults_from_album_artist [] (parseFlag []) (parseFlag ["multi".toList])
      (parseFlag [])).2 (by decide) (by decide)⟩⟩

/-- C4, as stated, fails: artist "delim ;" and album artist "delim ," pass the
consistency check (both modes are Delim) and reach `scanner.New` with different
delimiters. -/
theorem C4_counterexample_differing_delims :
    mainMultiValue [] (parseFlag []) (parseFlag ["delim ;".toList])
        (parseFlag ["delim ,".toList])
      = .ok { Genre := multiValueSetting.zero,
              Artist := { Mode := .Delim, Delim := [';'] },
              AlbumArtist := { Mode := .Delim, Delim := [','] } } ∧
    ([';'] : Str) ≠ [','] := by
  decide

/-- C4, amended: whenever startup validation passes, the Artist and AlbumArtist
settings handed to `scanner.New` have the same Mode; they have the same Delim
as well whenever the track-artist flag was left at mode None (it is then
derived from the album-artist flag, or both are unset). -/
theorem C4_artist_album_artist_same_mode (split : Str) (genre : multiValueSetting)
    (artistValues albumArtistValues : List Str) (s : ScannerSettings)
    (hok : mainMultiValue split genre (parseFlag artistValues) (parseFlag albumArtistValues)
      = .ok s) :
    s.Artist.Mode = s.AlbumArtist.Mode ∧
    ((parseFlag artistValues).Mode = .None → s.Artist.Delim = s.AlbumArtist.Delim) := by
  have hA := parseFlag_none_empty artistValues
  have hAA := parseFlag_none_empty albumArtistValues
  generalize parseFlag artistValues = a at *
  generalize parseFlag albumArtistValues = aa at *
  simp only [mainMultiValue] at hok
  split_ifs at hok with hm
  simp only [Except.ok.injEq] at hok
  subst hok
  simp only [ne_eq, not_not] at hm
  refine ⟨hm, ?_⟩
  intro hnone
  simp only [artistDefault] at hm ⊢
  split_ifs at hm ⊢ with hc
  · rfl
  · simp only [hnone] at hm
    rw [hA hnone, hAA hm.symm]

/-- Witness for C4 (amended): artist unset, album artist "delim ;". -/
theorem C4_artist_album_artist_same_mode_witness :
    mainMultiValue [] multiValueSetting.zero (parseFlag []) (parseFlag ["delim ;".toList])
      = .ok { Genre := multiValueSetting.zero,
              Artist := { Mode := .Delim, Delim := [';'] },
              AlbumArtist := { Mode := .Delim, Delim := [';'] } } ∧
    (MultiValueMode.Delim = MultiValueMode.Delim ∧
      ((parseFlag []).Mode = .None → ([';'] : Str) = [';'])) :=
  ⟨by decide,
   C4_artist_album_artist_same_mode [] multiValueSetting.zero [] ["delim ;".toList]
     { Genre := multiValueSetting.zero,
       Artist := { Mode := .Delim, Delim := [';'] },
       AlbumArtist := { Mode := .Delim, Delim := [';'] } } (by decide)⟩

/-- C5: Delim mode with an empty delimiter is unreachable. After any sequence of
`Set` calls from the zero value no flag has Mode = Delim with Delim = "", and
the same holds for the genre, artist and album-artist settings after the
deprecated genre-split override and the artist defaulting of `main`, hence for
whatever `main` hands to `scanner.New`. -/
theorem C5_delim_with_empty_delimiter_unreachable (split : Str)
    (genreValues artistValues albumArtistValues : List Str) :
    ¬ ((parseFlag genreValues).Mode = .Delim ∧ (parseFlag genreValues).Delim = []) ∧
    ¬ ((genreSplitOverride split (parseFlag genreValues)).Mode = .Delim ∧
        (genreSplitOverride split (parseFlag genreValues)).Delim = []) ∧
    ¬ ((artistDefault (parseFlag artistValues) (parseFlag albumArtistValues)).Mode = .Delim ∧
        (artistDefault (parseFlag artistValues) (parseFlag albumArtistValues)).Delim = []) ∧
    ¬ ((parseFlag albumArtistValues).Mode = .Delim ∧ (parseFlag albumArtistValues).Delim = []) ∧
    (∀ s, mainMultiValue split (parseFlag genreValues) (parseFlag artistValues)
          (parseFlag albumArtistValues) = .ok s →
      ¬ (s.Genre.Mode = .Delim ∧ s.Genre.Delim = []) ∧
      ¬ (s.Artist.Mode = .Delim ∧ s.Artist.Delim = []) ∧
      ¬ (s.AlbumArtist.Mode = .Delim ∧ s.AlbumArtist.Delim = [])) := by
  have hG := parseFlag_delim_nonempty genreValues
  have hA := parseFlag_delim_nonempty artistValues
  have hAA := parseFlag_delim_nonempty albumArtistValues
  generalize parseFlag genreValues = g at *
  generalize parseFlag artistValues = a at *
  generalize parseFlag albumArtistValues = aa at *
  have h1 : ¬ (g.Mode = .Delim ∧ g.Delim = []) := fun h => hG h.1 h.2
  have h2 : ¬ ((genreSplitOverride split g).Mode = .Delim ∧
      (genreSplitOverride split g).Delim = []) := by
    unfold genreSplitOverride
    split_ifs with hs
    · simp [hs.1]
    · exact h1
  have h3 : ¬ ((artistDefault a aa).Mode = .Delim ∧ (artistDefault a aa).Delim = []) := by
    unfold artistDefault
    split_ifs with hs
    · exact fun h => hAA h.1 h.2
    · exact fun h => hA h.1 h.2
  have h4 : ¬ (aa.Mode = .Delim ∧ aa.Delim = []) := fun h => hAA h.1 h.2
  refine ⟨h1, h2, h3, h4, ?_⟩
  intro s hs
  simp only [mainMultiValue] at hs
  split_ifs at hs
  simp only [Except.ok.injEq] at hs
  subst hs
  exact ⟨h2, h3, h4⟩

/-- Witness for C5: genre "delim ;" then "multi" with genre-split ",", artist
unset, album artist "delim /": the settings reach `scanner.New`. -/
theorem C5_delim_with_empty_delimiter_unreachable_witness :
    mainMultiValue [','] (parseFlag ["delim ;".toList, "multi".toList]) (parseFlag [])
        (parseFlag ["delim /".toList])
      = .ok { Genre := { Mode := .Delim, Delim := [','] },
              Artist := { Mode := .Delim, Delim := ['/'] },
              AlbumArtist := { Mode := .Delim, Delim := ['/'] } } ∧
    ¬ ((MultiValueMode.Delim = MultiValueMode.Delim) ∧ ([','] : Str) = []) :=
  ⟨by decide,
   ((C5_delim_with_empty_delimiter_unreachable [','] ["delim ;".toList, "multi".toList] []
      ["delim /".toList]).2.2.2.2
      { Genre := { Mode := .Delim, Delim := [','] },
        Artist := { Mode := .Delim, Delim := ['/'] },
        AlbumArtist := { Mode := .Delim, Delim := ['/'] } } (by decide)).1⟩

/-! ## Claims on `CanRead`, `validatePath`, `pathAliases.Set` and `First` -/

theorem extLoop_eq (rev acc : Str) :
    extLoop rev acc =
      if '.' ∈ rev.takeWhile (· ≠ '/') then
        '.' :: ((rev.takeWhile (· ≠ '/')).takeWhile (· ≠ '.')).reverse ++ acc
      else [] := by
  induction rev generalizing acc with
  | nil => simp [extLoop]
  | cons c rev ih =>
    by_cases h1 : c = '/'
    · simp [extLoop, h1]
    · by_cases h2 : c = '.'
      · simp [extLoop, h2]
      · have h3 : ¬ '.' = c := fun h => h2 h.symm
        simp only [extLoop, if_neg h1, if_neg h2, ih]
        simp [List.takeWhile_cons, h1, h2, h3]

theorem Ext_eq_extSpec (p : Str) : Ext p = extSpec p := by
  simp [Ext, extSpec, finalElem, extLoop_eq]

/-- C6: `CanRead(p)` is true exactly when the extension of the final element of
`p` (the suffix from its last dot), lower-cased, is one of the eleven audio
extensions; it is true for "x.MP3", false for "cover.jpg" and "list.m3u", and
false for every path whose final element has no dot. -/
theorem C6_CanRead_audio_extensions (unicodeLower : Char → Char) :
    (∀ p : Str, CanRead unicodeLower p = true ↔
      ToLower unicodeLower (extSpec p) ∈
        [".mp3".toList, ".flac".toList, ".aac".toList, ".m4a".toList, ".m4b".toList,
         ".ogg".toList, ".opus".toList, ".wma".toList, ".wav".toList, ".wv".toList,
         ".ape".toList]) ∧
    CanRead unicodeLower "x.MP3".toList = true ∧
    CanRead unicodeLower "cover.jpg".toList = false ∧
    CanRead unicodeLower "list.m3u".toList = false ∧
    (∀ p : Str, '.' ∉ finalElem p → CanRead unicodeLower p = false) := by
  refine ⟨?_, ?_, ?_, ?_, ?_⟩
  · intro p
    simp only [CanRead, Ext_eq_extSpec]
    split_ifs with h
    · exact ⟨fun _ => h, fun _ => rfl⟩
    · exact ⟨fun hc => (by cases hc), fun hc => absurd hc h⟩
  · rfl
  · rfl
  · rfl
  · intro p hp
    have : extSpec p = [] := by simp [extSpec, hp]
    simp only [CanRead, Ext_eq_extSpec, this, ToLower, List.map_nil]
    rfl

/-- Witness for C6: "song.Flac" is readable, "Makefile" is not. -/
theorem C6_CanRead_audio_extensions_witness :
    CanRead id "song.Flac".toList = true ∧
    ('.' ∉ finalElem "dir.d/Makefile".toList ∧ CanRead id "dir.d/Makefile".toList = false) :=
  ⟨((C6_CanRead_audio_extensions id).1 "song.Flac".toList).mpr (by decide),
   by decide,
   (C6_CanRead_audio_extensions id).2.2.2.2 "dir.d/Makefile".toList (by decide)⟩

theorem validateRoots_error {ε : Type} (fs : FileSys ε) (roots : pathAliases) (pa : pathAlias)
    (hmem : pa ∈ roots) (herr : ∃ err, validatePath fs pa.path = .error err) :
    ∃ f, validateRoots fs roots = .error f := by
  induction roots with
  | nil => cases hmem
  | cons r rest ih =>
    simp only [validateRoots]
    cases hr : validatePath fs r.path with
    | error e => exact ⟨_, rfl⟩
    | ok q =>
      have hin : pa ∈ rest := by
        rcases List.mem_cons.mp hmem with h | h
        · subst h
          obtain ⟨err, herr⟩ := herr
          rw [hr] at herr
          cases herr
        · exact h
      obtain ⟨f, hf⟩ := ih hin
      exact ⟨f, by simp [hf]⟩

/-- C7: `validatePath` returns an error for the empty string and for every path
whose stat reports "does not exist"; `main` stops when a music root fails; for
every other path `validatePath` returns `filepath.Abs` of the path with a nil
error whenever `Abs` succeeds. -/
theorem C7_validatePath_rejects_missing {ε : Type} (fs : FileSys ε) :
    validatePath fs [] = .error .empty ∧
    (∀ p : Str, statNotExist fs p = true →
      validatePath fs p = .error (if p = [] then .empty else .doesNotExist)) ∧
    (∀ (roots : pathAliases) (pa : pathAlias), pa ∈ roots →
      (∃ err, validatePath fs pa.path = .error err) → ∃ f, mainMusicPaths fs roots = .error f) ∧
    (∀ p q : Str, p ≠ [] → statNotExist fs p = false → fs.abs p = .ok q →
      validatePath fs p = .ok q) := by
  refine ⟨by simp [validatePath], ?_, ?_, ?_⟩
  · intro p h
    by_cases hp : p = [] <;> simp [validatePath, hp, h]
  · intro roots pa hmem herr
    simp only [mainMusicPaths]
    split_ifs with h0
    · exact ⟨_, rfl⟩
    · exact validateRoots_error fs roots pa hmem herr
  · intro p q hp hs ha
    simp [validatePath, hp, hs, ha]

/-- Witness for C7 on `demoFS`: "/nope" is rejected, alone and as a music root,
and "/music" is accepted. -/
theorem C7_validatePath_rejects_missing_witness :
    (statNotExist demoFS "/nope".toList = true ∧
      validatePath demoFS "/nope".toList = .error .doesNotExist) ∧
    (∃ f, mainMusicPaths demoFS [⟨[], "/music".toList⟩, ⟨[], "/nope".toList⟩] = .error f) ∧
    ("/music".toList ≠ [] ∧ statNotExist demoFS "/music".toList = false ∧
      demoFS.abs "/music".toList = .ok "/music".toList ∧
      validatePath demoFS "/music".toList = .ok "/music".toList) :=
  ⟨⟨by decide, (C7_validatePath_rejects_missing demoFS).2.1 "/nope".toList (by decide)⟩,
   (C7_validatePath_rejects_missing demoFS).2.2.1 [⟨[], "/music".toList⟩, ⟨[], "/nope".toList⟩]
     ⟨[], "/nope".toList⟩ (by decide) ⟨.doesNotExist, by decide⟩,
   ⟨by decide, by decide, by decide,
    (C7_validatePath_rejects_missing demoFS).2.2.2 "/music".toList "/music".toList
      (by decide) (by decide) (by decide)⟩⟩

theorem first_occurrence (sep : Str) (hsep : sep ≠ []) :
    ∀ (n : Nat) (s a b : Str), a.length = n → s = a ++ sep ++ b →
      ∃ a' b', s = a' ++ sep ++ b' ∧ ¬ sep <:+: a' ++ sep.dropLast := by
  intro n
  induction n using Nat.strong_induction_on with
  | _ n ih =>
    intro s a b hlen hs
    by_cases h : sep <:+: a ++ sep.dropLast
    · obtain ⟨u, w, huw⟩ := h
      have hpos : 0 < sep.length := List.length_pos.mpr hsep
      have hl : u.length < n := by
        have := congrArg List.length huw
        simp only [List.length_append, List.length_dropLast] at this
        omega
      refine ih u.length hl s u (w ++ [sep.getLast hsep] ++ b) rfl ?_
      have hsplit : sep = sep.dropLast ++ [sep.getLast hsep] :=
        (List.dropLast_append_getLast hsep).symm
      calc s = a ++ sep ++ b := hs
        _ = (a ++ sep.dropLast) ++ [sep.getLast hsep] ++ b := by
            conv_lhs => rw [hsplit]
            simp
        _ = (u ++ sep ++ w) ++ [sep.getLast hsep] ++ b := by rw [huw]
        _ = u ++ sep ++ (w ++ [sep.getLast hsep] ++ b) := by simp
    · exact ⟨a, b, hs, h⟩

/-- C8: `pathAliases.Set` never fails and appends exactly one entry at the end,
earlier entries unchanged. A value containing "->" splits as `a ++ "->" ++ b`
at its first "->" and the entry appended is (alias `a`, path `b`); for a value
without "->" the entry is (alias "", path the value). -/
theorem C8_pathAliases_Set (pa : pathAliases) :
    (∀ value : Str, (pa.Set value).2 = none ∧ ∃ e, (pa.Set value).1 = pa ++ [e]) ∧
    (∀ a b : Str, ¬ "->".toList <:+: a ++ ['-'] →
      pa.Set (a ++ "->".toList ++ b) = (pa ++ [{ alias_ := a, path := b }], none)) ∧
    (∀ value : Str, "->".toList <:+: value →
      ∃ a b, value = a ++ "->".toList ++ b ∧ ¬ "->".toList <:+: a ++ ['-'] ∧
        pa.Set value = (pa ++ [{ alias_ := a, path := b }], none)) ∧
    (∀ value : Str, ¬ "->".toList <:+: value →
      pa.Set value = (pa ++ [{ alias_ := [], path := value }], none)) := by
  have hfound : ∀ a b : Str, ¬ "->".toList <:+: a ++ ['-'] →
      pa.Set (a ++ "->".toList ++ b) = (pa ++ [{ alias_ := a, path := b }], none) := by
    intro a b h
    have hc := cut_append_sep pathAliasSep a b (by decide) h
    have hc' : cut (a ++ "->".toList ++ b) pathAliasSep = (a, b, true) := hc
    simp only [pathAliases.Set, hc']
    rfl
  refine ⟨?_, hfound, ?_, ?_⟩
  · intro value
    simp only [pathAliases.Set]
    split_ifs
    · exact ⟨rfl, _, rfl⟩
    · exact ⟨rfl, _, rfl⟩
  · intro value ⟨u, w, huw⟩
    obtain ⟨a, b, hab, hfirst⟩ :=
      first_occurrence pathAliasSep (by decide) u.length value u w rfl huw.symm
    refine ⟨a, b, hab, hfirst, ?_⟩
    rw [hab]
    exact hfound a b hfirst
  · intro value h
    have hc := cut_not_infix pathAliasSep value h
    simp [pathAliases.Set, hc]

/-- Witness for C8: "lib->/music->x" after one earlier entry, and "/music". -/
theorem C8_pathAliases_Set_witness :
    (¬ "->".toList <:+: "lib".toList ++ ['-'] ∧
      pathAliases.Set [⟨[], ['/']⟩] ("lib".toList ++ "->".toList ++ "/music->x".toList)
        = ([⟨[], ['/']⟩] ++ [{ alias_ := "lib".toList, path := "/music->x".toList }], none)) ∧
    (¬ "->".toList <:+: "/music".toList ∧
      pathAliases.Set [⟨[], ['/']⟩] "/music".toList
        = ([⟨[], ['/']⟩] ++ [{ alias_ := [], path := "/music".toList }], none)) :=
  ⟨⟨by decide, (C8_pathAliases_Set [⟨[], ['/']⟩]).2.1 "lib".toList "/music->x".toList (by decide)⟩,
   ⟨by decide, (C8_pathAliases_Set [⟨[], ['/']⟩]).2.2.2 "/music".toList (by decide)⟩⟩

theorem firstLoop_skip {ε : Type} (stat : Str → Option ε) (pre : List Str) (p : Str)
    (post : List Str) (err : Option ε) (hpre : ∀ q ∈ pre, stat q ≠ none) (hp : stat p = none) :
    firstLoop stat (pre ++ p :: post) err = (p, none) := by
  induction pre generalizing err with
  | nil => simp [firstLoop, hp]
  | cons q pre ih =>
    have hq : stat q ≠ none := hpre q (List.mem_cons_self _ _)
    cases hs : stat q with
    | none => exact absurd hs hq
    | some e =>
      simp only [List.cons_append, firstLoop, hs]
      exact ih (some e) (fun r hr => hpre r (List.mem_cons_of_mem _ hr))

theorem exists_first_ok {ε : Type} (stat : Str → Option ε) (path : List Str)
    (h : ∃ q ∈ path, stat q = none) :
    ∃ pre p post, path = pre ++ p :: post ∧ (∀ q ∈ pre, stat q ≠ none) ∧ stat p = none := by
  induction path with
  | nil => obtain ⟨q, hq, _⟩ := h; cases hq
  | cons x rest ih =>
    cases hx : stat x with
    | none => exact ⟨[], x, rest, rfl, by simp, hx⟩
    | some e =>
      have h' : ∃ q ∈ rest, stat q = none := by
        obtain ⟨q, hq, hs⟩ := h
        rcases List.mem_cons.mp hq with heq | hmem
        · subst heq; rw [hx] at hs; cases hs
        · exact ⟨q, hmem, hs⟩
      obtain ⟨pre, p, post, hpath, hpre, hp⟩ := ih h'
      refine ⟨x :: pre, p, post, by simp [hpath], ?_, hp⟩
      intro q hq
      rcases List.mem_cons.mp hq with heq | hmem
      · subst heq; simp [hx]
      · exact hpre q hmem

/-- C10: `First` returns the first existing path. When at least one argument
can be stat'ed, the arguments split as `pre ++ p :: post` with stat failing on
all of `pre` and succeeding on `p`, and `First` returns `p` with a nil error;
and for every such split `First` returns `p` with a nil error. -/
theorem C10_First_returns_first_existing {ε : Type} (stat : Str → Option ε) :
    (∀ path : List Str, (∃ q ∈ path, stat q = none) →
      ∃ pre p post, path = pre ++ p :: post ∧ (∀ q ∈ pre, stat q ≠ none) ∧ stat p = none ∧
        First stat path = (p, none)) ∧
    (∀ (pre : List Str) (p : Str) (post : List Str), (∀ q ∈ pre, stat q ≠ none) →
      stat p = none → First stat (pre ++ p :: post) = (p, none)) := by
  constructor
  · intro path h
    obtain ⟨pre, p, post, hpath, hpre, hp⟩ := exists_first_ok stat path h
    exact ⟨pre, p, post, hpath, hpre, hp, by rw [hpath]; exact firstLoop_skip stat pre p post none hpre hp⟩
  · intro pre p post hpre hp
    exact firstLoop_skip stat pre p post none hpre hp

/-- Witness for C10 on `demoFS`, with the arguments of `TestFirst`: "/one",
"/two", "/music", "/four", of which only "/music" exists. -/
theorem C10_First_returns_first_existing_witness :
    (∀ q ∈ ["/one".toList, "/two".toList], demoFS.stat q ≠ none) ∧
    demoFS.stat "/music".toList = none ∧
    First demoFS.stat (["/one".toList, "/two".toList] ++ "/music".toList :: ["/four".toList])
      = ("/music".toList, none) :=
  ⟨by decide, by decide,
   (C10_First_returns_first_existing demoFS.stat).2 ["/one".toList, "/two".toList]
     "/music".toList ["/four".toList] (by decide) (by decide)⟩

/-! ## Claim on `HasPrefix` -/

/-- C11: `HasPrefix` respects path boundaries. For every clean prefix `d`
(`filepath.Clean` leaves it unchanged) that does not end in a separator,
`HasPrefix(d, d)` is true, `HasPrefix(d + "/" + s, d)` is true for every `s`,
and `HasPrefix(d + s, d)` is false for every non-empty `s` that does not begin
with the separator; with "/a" clean, `HasPrefix("/aa", "/a")` is false and
`HasPrefix("/a/a", "/a")` is true. -/
theorem C11_HasPrefix_path_boundaries (clean : Str → Str) :
    (∀ d : Str, clean d = d → d.getLast? ≠ some '/' →
      HasPrefix clean d d = true ∧
      (∀ s : Str, HasPrefix clean (d ++ ['/'] ++ s) d = true) ∧
      (∀ s : Str, s ≠ [] → s.head? ≠ some '/' → HasPrefix clean (d ++ s) d = false)) ∧
    (clean "/a".toList = "/a".toList →
      HasPrefix clean "/aa".toList "/a".toList = false ∧
      HasPrefix clean "/a/a".toList "/a".toList = true) := by
  constructor
  · intro d hd _
    refine ⟨by simp [HasPrefix], ?_, ?_⟩
    · intro s
      have : (d ++ ['/']).isPrefixOf (d ++ ['/'] ++ s) = true :=
        List.isPrefixOf_iff_prefix.mpr (List.prefix_append _ _)
      simp only [HasPrefix, hd, this, Bool.or_true]
    · intro s hs hhead
      have hne : ¬ d ++ s = d := by
        intro h
        have := congrArg List.length h
        have hpos : 0 < s.length := List.length_pos.mpr hs
        simp only [List.length_append] at this
        omega
      have hpre : (d ++ ['/']).isPrefixOf (d ++ s) = false := by
        by_contra hc
        have hp : d ++ ['/'] <+: d ++ s := List.isPrefixOf_iff_prefix.mp (by simpa using hc)
        have hp2 : ['/'] <+: s := (List.prefix_append_right_inj d).mp hp
        obtain ⟨r, hr⟩ := hp2
        apply hhead
        rw [← hr]
        rfl
      simp only [HasPrefix, hd, hpre, Bool.or_false]
      exact decide_eq_false hne
  · intro h
    constructor
    · simp only [HasPrefix, h]
      decide
    · simp only [HasPrefix, h]
      decide

/-- Witness for C11 with the model `Clean` of `filepath.Clean`: the clean
prefix "/music/a" against itself, "/music/a/b.mp3" and "/music/ab". -/
theorem C11_HasPrefix_path_boundaries_witness :
    (Clean "/music/a".toList = "/music/a".toList ∧
      "/music/a".toList.getLast? ≠ some '/' ∧
      HasPrefix Clean "/music/a".toList "/music/a".toList = true ∧
      HasPrefix Clean ("/music/a".toList ++ ['/'] ++ "b.mp3".toList) "/music/a".toList = true ∧
      (['b'] ≠ ([] : Str) ∧ (['b'] : Str).head? ≠ some '/' ∧
        HasPrefix Clean ("/music/a".toList ++ ['b']) "/music/a".toList = false)) ∧
    (Clean "/a".toList = "/a".toList ∧
      HasPrefix Clean "/aa".toList "/a".toList = false ∧
      HasPrefix Clean "/a/a".toList "/a".toList = true) :=
  ⟨⟨by decide, by decide,
    ((C11_HasPrefix_path_boundaries Clean).1 "/music/a".toList (by decide) (by decide)).1,
    ((C11_HasPrefix_path_boundaries Clean).1 "/music/a".toList (by decide) (by decide)).2.1
      "b.mp3".toList,
    by decide, by decide,
    ((C11_HasPrefix_path_boundaries Clean).1 "/music/a".toList (by decide) (by decide)).2.2
      ['b'] (by decide) (by decide)⟩,
   ⟨by decide,
    ((C11_HasPrefix_path_boundaries Clean).2 (by decide)).1,
    ((C11_HasPrefix_path_boundaries Clean).2 (by decide)).2⟩⟩

/-! ## Claims on `withUser` -/

theorem paramCheck_passes_iff (q : AuthParams) :
    tokenAuth q ≠ passwordAuth q ↔
      (q.p = [] ∧ (q.t ≠ [] ∨ q.s ≠ [])) ∨ (q.p ≠ [] ∧ q.t = [] ∧ q.s = []) := by
  obtain ⟨u, p, t, s⟩ := q
  by_cases hp : p = [] <;> by_cases ht : t = [] <;> by_cases hs : s = [] <;>
    simp [tokenAuth, passwordAuth, hp, ht, hs]

theorem withUser_of_passes (env : AuthEnv) (q : AuthParams)
    (h : tokenAuth q ≠ passwordAuth q) :
    withUser env q =
      match env.getUserByName q.u with
      | none => .respError 40 ("invalid username ".toList ++ env.quote q.u)
      | some user =>
        if !credsOk env user q then .respError 40 "invalid password".toList
        else .next user := by
  simp only [withUser, if_neg h]

theorem withUser_gate (env : AuthEnv) (q : AuthParams) :
    (∀ user, withUser env q = .next user →
      env.getUserByName q.u = some user ∧
      (q.p = [] → checkCredsToken env user.Password q.t q.s = true) ∧
      (q.p ≠ [] → checkCredsBasic env user.Password q.p = true)) ∧
    ((q.p = [] ∧ q.t ≠ [] ∧ q.s ≠ []) ∨ (q.p ≠ [] ∧ q.t = [] ∧ q.s = []) →
      (env.getUserByName q.u = none →
        withUser env q = .respError 40 ("invalid username ".toList ++ env.quote q.u)) ∧
      (∀ user, env.getUserByName q.u = some user → credsOk env user q = false →
        withUser env q = .respError 40 "invalid password".toList)) ∧
    (env.getUserByName q.u = none → ∀ user, withUser env q ≠ .next user) ∧
    (∀ user, env.getUserByName q.u = some user → credsOk env user q = false →
      ∀ user', withUser env q ≠ .next user') := by
  have hnext : ∀ user, withUser env q = .next user →
      env.getUserByName q.u = some user ∧ credsOk env user q = true := by
    intro user h
    simp only [withUser] at h
    split_ifs at h with h1
    cases hu : env.getUserByName q.u with
    | none => simp [hu] at h
    | some usr =>
      simp only [hu] at h
      split_ifs at h with h2
      simp only [AuthOutcome.next.injEq] at h
      subst h
      exact ⟨rfl, by simpa using h2⟩
  refine ⟨?_, ?_, ?_, ?_⟩
  · intro user h
    obtain ⟨hu, hc⟩ := hnext user h
    refine ⟨hu, ?_, ?_⟩
    · intro hp
      simpa [credsOk, tokenAuth, hp] using hc
    · intro hp
      simpa [credsOk, tokenAuth, hp] using hc
  · intro hpass
    have h : tokenAuth q ≠ passwordAuth q := by
      apply (paramCheck_passes_iff q).mpr
      rcases hpass with ⟨hp, ht, _⟩ | hpw
      · exact Or.inl ⟨hp, Or.inl ht⟩
      · exact Or.inr hpw
    rw [withUser_of_passes env q h]
    constructor
    · intro hu
      simp [hu]
    · intro user hu hc
      simp [hu, hc]
  · intro hu user h
    have := (hnext user h).1
    rw [hu] at this
    cases this
  · intro user hu hc user' h
    obtain ⟨hu', hc'⟩ := hnext user' h
    rw [hu] at hu'
    cases hu'
    rw [hc] at hc'
    cases hc'

theorem writeResp_json_written (wenv : WriteEnv) (format : Str) (resp : SpecResponse)
    (data : List Nat) (hf : format = [] ∨ format = "json".toList)
    (hm : wenv.marshal (.underKey "subsonic-response".toList resp) = .ok data) :
    (writeResp wenv format (some resp)).1 =
      [.setHeader "Content-Type".toList "application/json".toList, .write data] := by
  have hc : ¬ (format ≠ [] ∧ format ≠ "json".toList) := by
    rcases hf with h | h <;> simp [h]
  simp only [writeResp, if_neg hc, hm]
  cases wenv.writeErr data <;> rfl

/-- C12, as stated, fails: a request naming the unknown user "ghost" and giving
none of `p`, `t`, `s` is answered with error code 10, not 40; and a request
naming "ghost" with a password and `f` = "xml" is answered with the bare
code 0 error that `writeResp` writes for an unsupported format, not 40. -/
theorem C12_counterexample_unknown_user_code_10 :
    demoAuth.getUserByName "ghost".toList = none ∧
    withUser demoAuth { u := "ghost".toList, p := [], t := [], s := [] }
      = .respError 10 "please provide `t` and `s`, or just `p`".toList ∧
    withUserServe demoAuth demoCodeWriteEnv "json".toList
        { u := "ghost".toList, p := [], t := [], s := [] }
      = .wrote [.setHeader "Content-Type".toList "application/json".toList, .write [1, 10]] ∧
    withUserServe demoAuth demoCodeWriteEnv "xml".toList
        { u := "ghost".toList, p := "x".toList, t := [], s := [] }
      = .wrote [.setHeader "Content-Type".toList "application/json".toList, .write [0, 0]] := by
  decide

/-- C12, amended: for every request, the wrapped handler is invoked only if a
user named `u` exists and the selected credential check (`checkCredsToken` when
`p` is empty, `checkCredsBasic` otherwise) succeeds against that user's stored
password; for every request that gives both `t` and `s` and no `p`, or just
`p`, an unknown user and a failed check each make `withUser` hand the code 40
error to `writeResp`, and when moreover `f` is empty or "json" what is written
is the JSON of that code 40 error under the key "subsonic-response" (whenever
`json.Marshal` succeeds); an unknown user or a failed check never reaches the
wrapped handler. -/
theorem C12_withUser_authentication_gate (env : AuthEnv) (wenv : WriteEnv) (format : Str)
    (q : AuthParams) :
    (∀ user, withUserServe env wenv format q = .next user →
      env.getUserByName q.u = some user ∧
      (q.p = [] → checkCredsToken env user.Password q.t q.s = true) ∧
      (q.p ≠ [] → checkCredsBasic env user.Password q.p = true)) ∧
    ((q.p = [] ∧ q.t ≠ [] ∧ q.s ≠ []) ∨ (q.p ≠ [] ∧ q.t = [] ∧ q.s = []) →
      (env.getUserByName q.u = none →
        withUser env q = .respError 40 ("invalid username ".toList ++ env.quote q.u) ∧
        (format = [] ∨ format = "json".toList → ∀ data,
          wenv.marshal (.underKey "subsonic-response".toList
            (NewError 40 ("invalid username ".toList ++ env.quote q.u))) = .ok data →
          withUserServe env wenv format q =
            .wrote [.setHeader "Content-Type".toList "application/json".toList,
                    .write data])) ∧
      (∀ user, env.getUserByName q.u = some user → credsOk env user q = false →
        withUser env q = .respError 40 "invalid password".toList ∧
        (format = [] ∨ format = "json".toList → ∀ data,
          wenv.marshal (.underKey "subsonic-response".toList
            (NewError 40 "invalid password".toList)) = .ok data →
          withUserServe env wenv format q =
            .wrote [.setHeader "Content-Type".toList "application/json".toList,
                    .write data]))) ∧
    (env.getUserByName q.u = none → ∀ user, withUserServe env wenv format q ≠ .next user) ∧
    (∀ user, env.getUserByName q.u = some user → credsOk env user q = false →
      ∀ user', withUserServe env wenv format q ≠ .next user') := by
  have hserve : ∀ user, withUserServe env wenv format q = .next user →
      withUser env q = .next user := by
    intro user h
    simp only [withUserServe] at h
    cases hw : withUser env q with
    | respError code message => simp [hw] at h
    | next usr =>
      simp only [hw, ServedOutcome.next.injEq] at h
      rw [h]
  obtain ⟨g1, g2, g3, g4⟩ := withUser_gate env q
  refine ⟨fun user h => g1 user (hserve user h), ?_,
    fun hu user h => g3 hu user (hserve user h),
    fun user hu hc user' h => g4 user hu hc user' (hserve user' h)⟩
  intro hshape
  obtain ⟨gu, gc⟩ := g2 hshape
  constructor
  · intro hu
    refine ⟨gu hu, ?_⟩
    intro hf data hm
    simp only [withUserServe, gu hu]
    rw [writeResp_json_written wenv format _ data hf hm]
  · intro user hu hc
    refine ⟨gc user hu hc, ?_⟩
    intro hf data hm
    simp only [withUserServe, gc user hu hc]
    rw [writeResp_json_written wenv format _ data hf hm]

/-- Witness for C12 (amended) on `demoAuth` and `demoCodeWriteEnv`, with `f` =
"json": "admin" with the right password is let through, "ghost" with a
password is answered 40, "admin" with a wrong password is answered 40. -/
theorem C12_withUser_authentication_gate_witness :
    (withUserServe demoAuth demoCodeWriteEnv "json".toList
        { u := "admin".toList, p := "secret".toList, t := [], s := [] }
        = .next { ID := 1, Name := "admin".toList, Password := "secret".toList,
                  IsAdmin := true, Avatar := none } ∧
      demoAuth.getUserByName "admin".toList
        = some { ID := 1, Name := "admin".toList, Password := "secret".toList,
                 IsAdmin := true, Avatar := none }) ∧
    (demoAuth.getUserByName "ghost".toList = none ∧
      demoCodeWriteEnv.marshal (.underKey "subsonic-response".toList
        (NewError 40 ("invalid username ".toList ++ demoAuth.quote "ghost".toList)))
        = .ok [1, 40] ∧
      withUserServe demoAuth demoCodeWriteEnv "json".toList
        { u := "ghost".toList, p := "x".toList, t := [], s := [] }
        = .wrote [.setHeader "Content-Type".toList "application/json".toList,
                  .write [1, 40]]) ∧
    (credsOk demoAuth { ID := 1, Name := "admin".toList, Password := "secret".toList,
                        IsAdmin := true, Avatar := none }
        { u := "admin".toList, p := "wrong".toList, t := [], s := [] } = false ∧
      withUserServe demoAuth demoCodeWriteEnv "json".toList
        { u := "admin".toList, p := "wrong".toList, t := [], s := [] }
        = .wrote [.setHeader "Content-Type".toList "application/json".toList,
                  .write [1, 40]]) :=
  ⟨⟨by decide,
    ((C12_withUser_authentication_gate demoAuth demoCodeWriteEnv "json".toList
      { u := "admin".toList, p := "secret".toList, t := [], s := [] }).1
        { ID := 1, Name := "admin".toList, Password := "secret".toList, IsAdmin := true,
          Avatar := none } (by decide)).1⟩,
   ⟨by decide, by decide,
    (((C12_withUser_authentication_gate demoAuth demoCodeWriteEnv "json".toList
      { u := "ghost".toList, p := "x".toList, t := [], s := [] }).2.1
        (Or.inr ⟨by decide, rfl, rfl⟩)).1 (by decide)).2 (Or.inr rfl) [1, 40] (by decide)⟩,
   ⟨by decide,
    (((C12_withUser_authentication_gate demoAuth demoCodeWriteEnv "json".toList
      { u := "admin".toList, p := "wrong".toList, t := [], s := [] }).2.1
        (Or.inr ⟨by decide, rfl, rfl⟩)).2
        { ID := 1, Name := "admin".toList, Password := "secret".toList, IsAdmin := true,
          Avatar := none } (by decide) (by decide)).2 (Or.inr rfl) [1, 40] (by decide)⟩⟩

/-- C13 at the failing input: a request giving `t` without `s` and no `p` is
not answered with the code 10 error, whatever the user store; on `demoAuth`
the token that is the digest of the bare password authenticates "admin", and a
request giving `s` without `t` is answered with code 40. -/
theorem C13_token_without_salt_passes_param_check (env : AuthEnv) (u : Str) :
    withUser env { u := u, p := [], t := "abc".toList, s := [] }
      ≠ .respError 10 "please provide `t` and `s`, or just `p`".toList ∧
    withUser demoAuth { u := "admin".toList, p := [], t := "[secret]".toList, s := [] }
      = .next { ID := 1, Name := "admin".toList, Password := "secret".toList,
                IsAdmin := true, Avatar := none } ∧
    withUser demoAuth { u := "admin".toList, p := [], t := [], s := "salt".toList }
      = .respError 40 "invalid password".toList := by
  refine ⟨?_, by decide, by decide⟩
  have h : tokenAuth { u := u, p := [], t := "abc".toList, s := [] }
      ≠ passwordAuth { u := u, p := [], t := "abc".toList, s := [] } := by
    simp [tokenAuth, passwordAuth]
  rw [withUser_of_passes env _ h]
  cases env.getUserByName u with
  | none => simp
  | some user =>
    simp only
    split_ifs <;> simp

/-! ## Claims on the admin handlers -/

theorem selectedUserIfAdmin_error (env : AdminEnv) (r : AdminRequest)
    (h : (r.ctxUser.IsAdmin = false ∧ r.queryUser ≠ [] ∧ r.queryUser ≠ r.ctxUser.Name) ∨
      r.queryUser = []) :
    ∃ err, selectedUserIfAdmin env r = .error err := by
  rcases h with ⟨hadm, hne, hdiff⟩ | hempty
  · refine ⟨"must be admin to perform actions for other users".toList, ?_⟩
    have hd : ¬ r.ctxUser.Name = r.queryUser := fun h => hdiff h.symm
    simp [selectedUserIfAdmin, hne, hadm, hd]
  · exact ⟨"please provide a username".toList, by simp [selectedUserIfAdmin, hempty]⟩

/-- C14: only admins act on other users. For every request whose authenticated
user is not an admin and whose `user` parameter is non-empty and differs from
that user's name, and for every request whose `user` parameter is empty,
`selectedUserIfAdmin` returns an error and every handler built on it (change
username, password, avatar; delete avatar; delete user; forms and actions)
answers with code 400 and that error, issuing no save and no delete. -/
theorem C14_only_admins_act_on_other_users (env : AdminEnv) (r : AdminRequest)
    (h : (r.ctxUser.IsAdmin = false ∧ r.queryUser ≠ [] ∧ r.queryUser ≠ r.ctxUser.Name) ∨
      r.queryUser = []) :
    ∃ err, selectedUserIfAdmin env r = .error err ∧
      ServeChangeUsernameDo env r = .done { code := 400, err := err } [] ∧
      ServeChangePasswordDo env r = .done { code := 400, err := err } [] ∧
      ServeChangeAvatarDo env r = .done { code := 400, err := err } [] ∧
      ServeDeleteAvatarDo env r = .done { code := 400, err := err } [] ∧
      ServeDeleteUserDo env r = .done { code := 400, err := err } [] ∧
      ServeChangeUsername env r = .done { code := 400, err := err } [] ∧
      ServeChangePassword env r = .done { code := 400, err := err } [] ∧
      ServeChangeAvatar env r = .done { code := 400, err := err } [] ∧
      ServeDeleteUser env r = .done { code := 400, err := err } [] := by
  obtain ⟨err, herr⟩ := selectedUserIfAdmin_error env r h
  refine ⟨err, herr, ?_, ?_, ?_, ?_, ?_, ?_, ?_, ?_, ?_⟩
  · simp only [ServeChangeUsernameDo, herr]
  · simp only [ServeChangePasswordDo, herr]
  · simp only [ServeChangeAvatarDo, herr]
  · simp only [ServeDeleteAvatarDo, herr]
  · simp only [ServeDeleteUserDo, herr]
  · simp only [ServeChangeUsername, herr]
  · simp only [ServeChangePassword, herr]
  · simp only [ServeChangeAvatar, herr]
  · simp only [ServeDeleteUser, herr]

/-- Witness for C14: "bob", not an admin, asks to act on "admin". -/
theorem C14_only_admins_act_on_other_users_witness :
    ((demoRequest demoBob "admin".toList).ctxUser.IsAdmin = false ∧
      (demoRequest demoBob "admin".toList).queryUser ≠ [] ∧
      (demoRequest demoBob "admin".toList).queryUser
        ≠ (demoRequest demoBob "admin".toList).ctxUser.Name) ∧
    ∃ err, selectedUserIfAdmin demoAdminEnv (demoRequest demoBob "admin".toList) = .error err ∧
      ServeChangeUsernameDo demoAdminEnv (demoRequest demoBob "admin".toList)
        = .done { code := 400, err := err } [] ∧
      ServeChangePasswordDo demoAdminEnv (demoRequest demoBob "admin".toList)
        = .done { code := 400, err := err } [] ∧
      ServeChangeAvatarDo demoAdminEnv (demoRequest demoBob "admin".toList)
        = .done { code := 400, err := err } [] ∧
      ServeDeleteAvatarDo demoAdminEnv (demoRequest demoBob "admin".toList)
        = .done { code := 400, err := err } [] ∧
      ServeDeleteUserDo demoAdminEnv (demoRequest demoBob "admin".toList)
        = .done { code := 400, err := err } [] ∧
      ServeChangeUsername demoAdminEnv (demoRequest demoBob "admin".toList)
        = .done { code := 400, err := err } [] ∧
      ServeChangePassword demoAdminEnv (demoRequest demoBob "admin".toList)
        = .done { code := 400, err := err } [] ∧
      ServeChangeAvatar demoAdminEnv (demoRequest demoBob "admin".toList)
        = .done { code := 400, err := err } [] ∧
      ServeDeleteUser demoAdminEnv (demoRequest demoBob "admin".toList)
        = .done { code := 400, err := err } [] :=
  ⟨⟨by decide, by decide, by decide⟩,
   C14_only_admins_act_on_other_users demoAdminEnv (demoRequest demoBob "admin".toList)
     (Or.inl ⟨by decide, by decide, by decide⟩)⟩

/-- C15, as stated, fails: "bob", not an admin, asks `ServeDeleteUserDo` to
delete "admin", a user with `IsAdmin` set; the answer is code 400 "must be
admin to perform actions for other users", not the redirect to /admin/home
with the warning. -/
theorem C15_counterexample_non_admin_requester :
    demoAdminEnv.getUserByName (demoRequest demoBob "admin".toList).queryUser
      = some demoAdmin ∧
    demoAdmin.IsAdmin = true ∧
    (demoRequest demoBob "admin".toList).ctxUser.IsAdmin = false ∧
    ServeDeleteUserDo demoAdminEnv (demoRequest demoBob "admin".toList) =
      .done { code := 400,
              err := "must be admin to perform actions for other users".toList } [] ∧
    ServeDeleteUserDo demoAdminEnv (demoRequest demoBob "admin".toList) ≠
      .done { redirect := "/admin/home".toList,
              flashW := ["can't delete the admin user".toList] } [] := by
  decide

/-- C15, amended: the admin user cannot be deleted. For every request to
`ServeDeleteUserDo` whose non-empty `user` parameter names a user with
`IsAdmin` set, no delete (and no other write) is issued to the store, whoever
the requester is; the response redirects to /admin/home with the warning
"can't delete the admin user" when the requester is an admin or bears the
name given in `user`, and is code 400 "must be admin to perform actions for
other users" for every other requester. -/
theorem C15_admin_user_cannot_be_deleted (env : AdminEnv) (r : AdminRequest) (user : User)
    (hq : r.queryUser ≠ []) (hget : env.getUserByName r.queryUser = some user)
    (hadm : user.IsAdmin = true) :
    (ServeDeleteUserDo env r).ops = [] ∧
    (r.ctxUser.IsAdmin = true ∨ r.ctxUser.Name = r.queryUser →
      ServeDeleteUserDo env r =
        .done { redirect := "/admin/home".toList,
                flashW := ["can't delete the admin user".toList] } []) ∧
    (r.ctxUser.IsAdmin = false ∧ r.ctxUser.Name ≠ r.queryUser →
      ServeDeleteUserDo env r =
        .done { code := 400,
                err := "must be admin to perform actions for other users".toList } []) := by
  have hallowed : r.ctxUser.IsAdmin = true ∨ r.ctxUser.Name = r.queryUser →
      ServeDeleteUserDo env r =
        .done { redirect := "/admin/home".toList,
                flashW := ["can't delete the admin user".toList] } [] := by
    intro h
    have hsel : selectedUserIfAdmin env r = .ok (some user) := by
      rcases h with h | h <;> simp [selectedUserIfAdmin, hq, h, hget]
    simp [ServeDeleteUserDo, hsel, hadm]
  have hdenied : r.ctxUser.IsAdmin = false ∧ r.ctxUser.Name ≠ r.queryUser →
      ServeDeleteUserDo env r =
        .done { code := 400,
                err := "must be admin to perform actions for other users".toList } [] := by
    intro ⟨h1, h2⟩
    have hsel : selectedUserIfAdmin env r =
        .error "must be admin to perform actions for other users".toList := by
      simp [selectedUserIfAdmin, hq, h1, h2]
    simp only [ServeDeleteUserDo, hsel]
  refine ⟨?_, hallowed, hdenied⟩
  by_cases h : r.ctxUser.IsAdmin = true ∨ r.ctxUser.Name = r.queryUser
  · rw [hallowed h]; rfl
  · have h' : r.ctxUser.IsAdmin = false ∧ r.ctxUser.Name ≠ r.queryUser := by
      constructor
      · cases hc : r.ctxUser.IsAdmin with
        | false => rfl
        | true => exact absurd (Or.inl hc) h
      · exact fun hn => h (Or.inr hn)
    rw [hdenied h']; rfl

/-- Witness for C15 (amended): the admin asks to delete "admin" and gets the
warning; "bob" asks the same and gets code 400; neither writes to the store. -/
theorem C15_admin_user_cannot_be_deleted_witness :
    ((demoRequest demoAdmin "admin".toList).queryUser ≠ [] ∧
      demoAdminEnv.getUserByName (demoRequest demoAdmin "admin".toList).queryUser
        = some demoAdmin ∧ demoAdmin.IsAdmin = true ∧
      (ServeDeleteUserDo demoAdminEnv (demoRequest demoAdmin "admin".toList)).ops = [] ∧
      ServeDeleteUserDo demoAdminEnv (demoRequest demoAdmin "admin".toList) =
        .done { redirect := "/admin/home".toList,
                flashW := ["can't delete the admin user".toList] } []) ∧
    ((demoRequest demoBob "admin".toList).ctxUser.IsAdmin = false ∧
      (demoRequest demoBob "admin".toList).ctxUser.Name
        ≠ (demoRequest demoBob "admin".toList).queryUser ∧
      (ServeDeleteUserDo demoAdminEnv (demoRequest demoBob "admin".toList)).ops = [] ∧
      ServeDeleteUserDo demoAdminEnv (demoRequest demoBob "admin".toList) =
        .done { code := 400,
                err := "must be admin to perform actions for other users".toList } []) :=
  ⟨⟨by decide, by decide, by decide,
    (C15_admin_user_cannot_be_deleted demoAdminEnv (demoRequest demoAdmin "admin".toList)
      demoAdmin (by decide) (by decide) (by decide)).1,
    (C15_admin_user_cannot_be_deleted demoAdminEnv (demoRequest demoAdmin "admin".toList)
      demoAdmin (by decide) (by decide) (by decide)).2.1 (Or.inl (by decide))⟩,
   ⟨by decide, by decide,
    (C15_admin_user_cannot_be_deleted demoAdminEnv (demoRequest demoBob "admin".toList)
      demoAdmin (by decide) (by decide) (by decide)).1,
    (C15_admin_user_cannot_be_deleted demoAdminEnv (demoRequest demoBob "admin".toList)
      demoAdmin (by decide) (by decide) (by decide)).2.2 ⟨by decide, by decide⟩⟩⟩

/-! ## Claims on `ServeGetPlayQueue` and `writeResp` -/

theorem playQueueLoop_store (st : StoreState) (transcodeMeta : Str)
    (hT : ∀ t ∈ st.tracks, t.ID ≠ 0) (hE : ∀ e ∈ st.episodes, e.ID ≠ 0)
    (items : List SpecID) (list : List TrackChild) :
    playQueueLoop st.db transcodeMeta items list =
      .ok (list ++ items.filterMap fun id =>
        match id.Type_ with
        | .Track => (st.tracks.find? (fun t => t.ID = id.Value)).map (.ofTrack · transcodeMeta)
        | .PodcastEpisode =>
          (st.episodes.find? (fun e => e.ID = id.Value)).map (.ofPodcastEpisode · transcodeMeta)
        | _ => none) := by
  induction items generalizing list with
  | nil => simp [playQueueLoop]
  | cons id rest ih =>
    obtain ⟨ty, v⟩ := id
    cases ty
    case Track =>
      cases hf : st.tracks.find? (fun t => t.ID = v) with
      | none =>
        have hdb : st.db.findTrack v = .notFound := by simp [StoreState.db, hf]
        simp [playQueueLoop, hdb, hf, FindResult.row, Track.zero, ih]
      | some t =>
        have hne : t.ID ≠ 0 := hT t (List.mem_of_find?_eq_some hf)
        have hdb : st.db.findTrack v = .found t := by simp [StoreState.db, hf]
        simp [playQueueLoop, hdb, hf, FindResult.row, hne, ih]
    case PodcastEpisode =>
      cases hf : st.episodes.find? (fun e => e.ID = v) with
      | none =>
        have hdb : st.db.findEpisode v = .notFound := by simp [StoreState.db, hf]
        simp [playQueueLoop, hdb, hf, FindResult.row, PodcastEpisode.zero, ih]
      | some e =>
        have hne : e.ID ≠ 0 := hE e (List.mem_of_find?_eq_some hf)
        have hdb : st.db.findEpisode v = .found e := by simp [StoreState.db, hf]
        simp [playQueueLoop, hdb, hf, FindResult.row, hne, ih]
    all_goals simp [playQueueLoop, ih]

/-- C16: the play queue tolerates entities deleted out from under it. For every
store state (primary keys non-zero) and every saved play queue,
`ServeGetPlayQueue` returns a response without error whose list is, in queue
order, exactly the queue items whose track or podcast episode row exists; an
item whose row is gone is left out. -/
theorem C16_play_queue_tolerates_deleted_rows (st : StoreState) (username transcodeMeta : Str)
    (hT : ∀ t ∈ st.tracks, t.ID ≠ 0) (hE : ∀ e ∈ st.episodes, e.ID ≠ 0) :
    ServeGetPlayQueue st.db username transcodeMeta =
      { Error := none,
        PlayQueue := some { Username := username, Position := st.queue.Position,
                            ChangedBy := st.queue.ChangedBy,
                            List := liveQueueItems st transcodeMeta } } := by
  have h := playQueueLoop_store st transcodeMeta hT hE st.queue.Items []
  simp only [List.nil_append] at h
  have hq : st.db.findQueue = .found st.queue := rfl
  simp only [ServeGetPlayQueue, hq, FindResult.row, h, liveQueueItems]

/-- Witness for C16 on `demoStore`: track 2 was deleted and the queue also
names an album; the list keeps track 1, episode 7 and track 3, in that order. -/
theorem C16_play_queue_tolerates_deleted_rows_witness :
    (∀ t ∈ demoStore.tracks, t.ID ≠ 0) ∧ (∀ e ∈ demoStore.episodes, e.ID ≠ 0) ∧
    ServeGetPlayQueue demoStore.db ['u'] ['m'] =
      { Error := none,
        PlayQueue := some { Username := ['u'], Position := demoStore.queue.Position,
                            ChangedBy := demoStore.queue.ChangedBy,
                            List := liveQueueItems demoStore ['m'] } } ∧
    liveQueueItems demoStore ['m'] =
      [.ofTrack { ID := 1, TagTitle := ['a'], TagTrackArtist := ['x'], TagLyrics := [] } ['m'],
       .ofPodcastEpisode { ID := 7, Title := ['e'] } ['m'],
       .ofTrack { ID := 3, TagTitle := ['c'], TagTrackArtist := ['x'], TagLyrics := [] } ['m']] :=
  ⟨by decide, by decide,
   C16_play_queue_tolerates_deleted_rows demoStore ['u'] ['m'] (by decide) (by decide),
   by decide⟩

/-- C17: response format handling of `writeResp`. For a nil response nothing is
written and nil is returned. For a non-nil response, when `f` is empty or
"json" the value marshalled and written is that response under the top-level
key "subsonic-response"; for any other `f` the value marshalled and written is
instead the error response with code 0 and message "unsupported format '<f>',
only json format is supported". -/
theorem C17_writeResp_format (env : WriteEnv) (format : Str) :
    writeResp env format none = ([], none) ∧
    (∀ (resp : SpecResponse) (data : List Nat), format = [] ∨ format = "json".toList →
      env.marshal (.underKey "subsonic-response".toList resp) = .ok data →
      (writeResp env format (some resp)).1 =
        [.setHeader "Content-Type".toList "application/json".toList, .write data]) ∧
    (∀ (resp : SpecResponse) (data : List Nat), format ≠ [] → format ≠ "json".toList →
      env.marshal (.bare (NewError 0
        ("unsupported format '".toList ++ format
          ++ "', only json format is supported".toList))) = .ok data →
      (writeResp env format (some resp)).1 =
        [.setHeader "Content-Type".toList "application/json".toList, .write data]) := by
  refine ⟨rfl, ?_, ?_⟩
  · intro resp data hf hm
    have hc : ¬ (format ≠ [] ∧ format ≠ "json".toList) := by
      rcases hf with h | h <;> simp [h]
    simp only [writeResp, if_neg hc, hm]
    cases env.writeErr data <;> rfl
  · intro resp data h1 h2 hm
    have hc : format ≠ [] ∧ format ≠ "json".toList := ⟨h1, h2⟩
    simp only [writeResp, if_pos hc, hm]
    cases env.writeErr data <;> rfl

/-- Witness for C17 on `demoWriteEnv`: `f` = "json" writes the response under
the key, `f` = "xml" writes the bare error response. -/
theorem C17_writeResp_format_witness :
    (demoWriteEnv.marshal (.underKey "subsonic-response".toList NewResponse) = .ok [1] ∧
      (writeResp demoWriteEnv "json".toList (some NewResponse)).1 =
        [.setHeader "Content-Type".toList "application/json".toList, .write [1]]) ∧
    ("xml".toList ≠ [] ∧ "xml".toList ≠ "json".toList ∧
      (writeResp demoWriteEnv "xml".toList (some NewResponse)).1 =
        [.setHeader "Content-Type".toList "application/json".toList, .write [0]]) :=
  ⟨⟨by decide,
    (C17_writeResp_format demoWriteEnv "json".toList).2.1 NewResponse [1] (Or.inr rfl)
      (by decide)⟩,
   ⟨by decide, by decide,
    (C17_writeResp_format demoWriteEnv "xml".toList).2.2 NewResponse [0] (by decide) (by decide)
      (by decide)⟩⟩

/-! ## Claims on `ServeGetCoverArt` -/

theorem coverEncodedSize_le (resample : Int → Int → Int → Int → Int × Int) (size w h : Int)
    (hw : 0 ≤ w) (hh : 0 ≤ h) :
    (coverEncodedSize resample size w h).1 ≤ w ∧ (coverEncodedSize resample size w h).2 ≤ h := by
  simp only [coverEncodedSize, coverMinSize]
  split_ifs with hne
  · have hm : min size (max w h) = max w h := by
      rcases le_total size (max w h) with hle | hle
      · exact absurd (min_eq_left hle) hne
      · exact min_eq_right hle
    rw [hm]
    simp only [fitSize]
    split_ifs with h1 h2 h3
    · exact ⟨hw, hh⟩
    · exact ⟨hw, hh⟩
    · exact ⟨le_refl _, le_refl _⟩
    · exact absurd ⟨le_max_left w h, le_max_right w h⟩ h3
  · exact ⟨le_refl _, le_refl _⟩

/-- C18: cover art is never upscaled. For every decoded source image of width
`w` and height `h` and every requested size > 0, the bound given to the fit
step, min(size, max(w, h)), does not exceed max(w, h), and the image
`ServeGetCoverArt` encodes has width <= `w` and height <= `h`. -/
theorem C18_cover_art_never_upscaled (resample : Int → Int → Int → Int → Int × Int)
    (size w h : Int) (hsize : 0 < size) (hw : 0 ≤ w) (hh : 0 ≤ h) :
    coverMinSize size w h ≤ max w h ∧
    ∀ id : SpecID, ∃ d, ServeGetCoverArt resample (some id) (some size) (fun _ => .ok (w, h))
      = .ok d ∧ d.1 ≤ w ∧ d.2 ≤ h := by
  refine ⟨min_le_right _ _, fun id => ⟨coverEncodedSize resample size w h, ?_,
    coverEncodedSize_le resample size w h hw hh⟩⟩
  have hn : ¬ size ≤ 0 := not_le.mpr hsize
  simp [ServeGetCoverArt, hn]

/-- Witness for C18: a 300 x 200 cover requested at size 600 is encoded at
300 x 200. -/
theorem C18_cover_art_never_upscaled_witness :
    (0 : Int) < 600 ∧ (0 : Int) ≤ 300 ∧ (0 : Int) ≤ 200 ∧
    (coverMinSize 600 300 200 ≤ max 300 200 ∧
      ∀ id : SpecID, ∃ d, ServeGetCoverArt demoResample (some id) (some 600)
        (fun _ => .ok (300, 200)) = .ok d ∧ d.1 ≤ 300 ∧ d.2 ≤ 200) :=
  ⟨by decide, by decide, by decide,
   C18_cover_art_never_upscaled demoResample 600 300 200 (by decide) (by decide) (by decide)⟩

/-- C19 at the failing input: a 1000 x 1000 cover requested at the default size
(600), or at size 600 given explicitly, is encoded at 1000 x 1000, which does
not fit within 600 x 600; the fit step is skipped because `minSize` equals the
requested size. -/
theorem C19_cover_art_not_scaled_down (resample : Int → Int → Int → Int → Int × Int)
    (id : SpecID) :
    coverMinSize 600 1000 1000 = 600 ∧
    ServeGetCoverArt resample (some id) none (fun _ => .ok (1000, 1000)) = .ok (1000, 1000) ∧
    ServeGetCoverArt resample (some id) (some 600) (fun _ => .ok (1000, 1000))
      = .ok (1000, 1000) ∧
    ¬ ((1000 : Int) ≤ 600) := by
  refine ⟨by decide, ?_, ?_, by decide⟩
  · simp only [ServeGetCoverArt, Option.getD, coverDefaultSize]
    rfl
  · simp only [ServeGetCoverArt, Option.getD]
    rfl

/-! ## Claim on `ServeGetLyrics` -/

theorem insertionStep_unsynced (x : StructuredLyrics) (hx : x.Synced = false)
    (rev : List StructuredLyrics) : insertionStep lyricsCmp x rev = rev ++ [x] := by
  induction rev with
  | nil => rfl
  | cons y rev ih => simp [insertionStep, lyricsCmp, hx, ih]

theorem insertionStep_synced (x : StructuredLyrics) (hx : x.Synced = true)
    (rev : List StructuredLyrics) : insertionStep lyricsCmp x rev = x :: rev := by
  cases rev with
  | nil => rfl
  | cons y rev => simp [insertionStep, lyricsCmp, hx]

theorem insertion_foldl_lyrics (data init : List StructuredLyrics) :
    data.foldl (fun rev x => insertionStep lyricsCmp x rev) init =
      (data.filter (fun l => l.Synced)).reverse ++ init
        ++ data.filter (fun l => !l.Synced) := by
  induction data generalizing init with
  | nil => simp
  | cons x data ih =>
    simp only [List.foldl_cons, ih]
    cases hx : x.Synced with
    | false => simp [insertionStep_unsynced x hx, List.filter_cons, hx]
    | true => simp [insertionStep_synced x hx, List.filter_cons, hx]

theorem insertionSort_lyrics (data : List StructuredLyrics) :
    insertionSortCmpFunc lyricsCmp data =
      (data.filter (fun l => !l.Synced)).reverse ++ data.filter (fun l => l.Synced) := by
  simp [insertionSortCmpFunc, insertion_foldl_lyrics]

theorem lyricsAll_length (src : LyricsSources) (track : Track) (lyrics : List StructuredLyrics)
    (h : lyricsAll src track = .ok lyrics) : lyrics.length ≤ 3 := by
  simp only [lyricsAll] at h
  cases h1 : src.fromTags track with
  | error e => simp [h1] at h
  | ok a =>
    cases h2 : src.fromFile track with
    | error e => simp [h1, h2] at h
    | ok b =>
      cases h3 : src.fromFileUnsynced track with
      | error e => simp [h1, h2, h3] at h
      | ok c =>
        simp only [h1, h2, h3, Except.ok.injEq] at h
        subst h
        cases a <;> cases b <;> cases c <;> simp

/-- C20: `ServeGetLyrics` prefers unsynced lyrics. For every track for which
`lyricsAll` returns a list (at most three entries) with at least one entry
with Synced = false, the `Value` of the response is the lines of an unsynced
entry of the list joined with "\n"; when the list is non-empty and every
entry is synced, it is the lines of the first entry. -/
theorem C20_getLyrics_prefers_unsynced
    (pdq : (StructuredLyrics → StructuredLyrics → Int) → List StructuredLyrics →
      List StructuredLyrics)
    (src : LyricsSources) (track : Track) (lyrics : List StructuredLyrics)
    (hall : lyricsAll src track = .ok lyrics) :
    lyrics.length ≤ 3 ∧
    ((∃ l ∈ lyrics, l.Synced = false) →
      ∃ l ∈ lyrics, l.Synced = false ∧
        ServeGetLyrics pdq src (.found track) =
          { Lyrics := some { Artist := track.TagTrackArtist, Title := track.TagTitle,
                             Value := Join (l.Lines.map (·.Value)) ['\n'] } }) ∧
    ((∀ l ∈ lyrics, l.Synced = true) → ∀ first rest, lyrics = first :: rest →
      ServeGetLyrics pdq src (.found track) =
        { Lyrics := some { Artist := track.TagTrackArtist, Title := track.TagTitle,
                           Value := Join (first.Lines.map (·.Value)) ['\n'] } }) := by
  have hlen := lyricsAll_length src track lyrics hall
  have hsort : SortFunc pdq lyricsCmp lyrics =
      (lyrics.filter (fun l => !l.Synced)).reverse ++ lyrics.filter (fun l => l.Synced) := by
    have h12 : lyrics.length ≤ 12 := by omega
    simp only [SortFunc, if_pos h12, insertionSort_lyrics]
  refine ⟨hlen, ?_, ?_⟩
  · intro ⟨l0, hl0, hs0⟩
    have hne : (lyrics.filter (fun l => !l.Synced)).reverse ≠ [] := by
      intro hnil
      have hmem : l0 ∈ (lyrics.filter (fun l => !l.Synced)).reverse := by
        simp [List.mem_filter, hl0, hs0]
      rw [hnil] at hmem
      cases hmem
    obtain ⟨l, tl, htl⟩ := List.exists_cons_of_ne_nil hne
    have hl : l ∈ (lyrics.filter (fun l => !l.Synced)).reverse := by
      rw [htl]; exact List.mem_cons_self _ _
    have hl' : l ∈ lyrics ∧ l.Synced = false := by
      simpa [List.mem_filter] using hl
    refine ⟨l, hl'.1, hl'.2, ?_⟩
    have hpos : lyrics.length ≠ 0 := by
      intro h0
      have : lyrics = [] := List.length_eq_zero.mp h0
      rw [this] at hl0
      cases hl0
    simp only [ServeGetLyrics, hall, lyricsValue, if_neg hpos, hsort, htl, List.cons_append]
  · intro hallsynced first rest hcons
    have hf1 : lyrics.filter (fun l => !l.Synced) = [] := by
      rw [List.filter_eq_nil_iff]
      intro l hl
      simp [hallsynced l hl]
    have hf2 : lyrics.filter (fun l => l.Synced) = lyrics := by
      rw [List.filter_eq_self]
      intro l hl
      simp [hallsynced l hl]
    have hpos : lyrics.length ≠ 0 := by simp [hcons]
    simp only [ServeGetLyrics, hall, lyricsValue, if_neg hpos, hsort, hf1, hf2,
      List.reverse_nil, List.nil_append]
    rw [hcons]

/-- Witness for C20 on `demoSources`: the tags and the .lrc file give synced
lyrics, the .txt file unsynced ones, and the response carries the .txt
lines. -/
theorem C20_getLyrics_prefers_unsynced_witness :
    lyricsAll demoSources Track.zero = .ok [demoTagLyrics, demoLrcLyrics, demoTxtLyrics] ∧
    (∃ l ∈ [demoTagLyrics, demoLrcLyrics, demoTxtLyrics], l.Synced = false) ∧
    [demoTagLyrics, demoLrcLyrics, demoTxtLyrics].length ≤ 3 ∧
    (∃ l ∈ [demoTagLyrics, demoLrcLyrics, demoTxtLyrics], l.Synced = false ∧
      ServeGetLyrics (fun _ data => data) demoSources (.found Track.zero) =
        { Lyrics := some { Artist := Track.zero.TagTrackArtist, Title := Track.zero.TagTitle,
                           Value := Join (l.Lines.map (·.Value)) ['\n'] } }) ∧
    ServeGetLyrics (fun _ data => data) demoSources (.found Track.zero) =
      { Lyrics := some { Artist := [], Title := [], Value := ['a', '\n', 'b'] } } :=
  ⟨by decide, ⟨demoTxtLyrics, by decide, by decide⟩,
   (C20_getLyrics_prefers_unsynced (fun _ data => data) demoSources Track.zero
     [demoTagLyrics, demoLrcLyrics, demoTxtLyrics] (by decide)).1,
   (C20_getLyrics_prefers_unsynced (fun _ data => data) demoSources Track.zero
     [demoTagLyrics, demoLrcLyrics, demoTxtLyrics] (by decide)).2.1
     ⟨demoTxtLyrics, by decide, by decide⟩,
   by decide⟩

/-! ## Claim on the delimiter carried by a flag -/

theorem Set_delim_origin (m : multiValueSetting) (v : Str) :
    (m.Set v).1.Delim = m.Delim ∨
      ((m.Set v).1.Delim ≠ [] ∧ v = "delim ".toList ++ (m.Set v).1.Delim) := by
  simp only [multiValueSetting.Set]
  split_ifs with h1 h2 h3 h4
  · exact Or.inl rfl
  · right
    refine ⟨h2, ?_⟩
    rcases cut_spec [' '] v with ⟨_, hv⟩ | ⟨_, _, hempty⟩
    · conv_lhs => rw [hv, h1]
      rfl
    · exact absurd hempty h2
  · exact Or.inl rfl
  · exact Or.inl rfl
  · exact Or.inl rfl

theorem foldl_Set_delim_origin (values : List Str) (init : multiValueSetting) :
    (values.foldl (fun mvs v => (mvs.Set v).1) init).Delim = init.Delim ∨
      ((values.foldl (fun mvs v => (mvs.Set v).1) init).Delim ≠ [] ∧
        "delim ".toList ++ (values.foldl (fun mvs v => (mvs.Set v).1) init).Delim ∈ values) := by
  induction values generalizing init with
  | nil => exact Or.inl rfl
  | cons v vs ih =>
    simp only [List.foldl_cons]
    rcases ih (init.Set v).1 with h | ⟨hne, hmem⟩
    · rcases Set_delim_origin init v with h0 | ⟨hne0, hv0⟩
      · exact Or.inl (h.trans h0)
      · right
        rw [h]
        exact ⟨hne0, by rw [← hv0]; exact List.mem_cons_self _ _⟩
    · exact Or.inr ⟨hne, List.mem_cons_of_mem _ hmem⟩

/-- C21, as stated, fails: after the calls "delim ;" and then "multi" the mode
is Multi and the delimiter is still ";". -/
theorem C21_counterexample_multi_keeps_delimiter :
    parseFlag ["delim ;".toList, "multi".toList] = { Mode := .Multi, Delim := [';'] } ∧
    (parseFlag ["delim ;".toList, "multi".toList]).Delim ≠ [] ∧
    (parseFlag ["delim ;".toList, "multi".toList]).Mode ≠ .Delim := by
  decide

/-- C21, amended: starting from the zero setting, after any finite sequence of
`Set` calls, Delim is non-empty only if Mode is not None and one of the calls
was "delim " followed by that delimiter (a setting whose mode is None carries
no delimiter; a setting whose mode is Multi carries the delimiter of an
earlier delim call, if there was one). -/
theorem C21_delimiter_comes_from_delim_call (values : List Str) :
    ((parseFlag values).Mode = .None → (parseFlag values).Delim = []) ∧
    ((parseFlag values).Delim ≠ [] →
      ((parseFlag values).Mode = .Delim ∨ (parseFlag values).Mode = .Multi) ∧
      "delim ".toList ++ (parseFlag values).Delim ∈ values) := by
  refine ⟨parseFlag_none_empty values, ?_⟩
  intro hne
  constructor
  · cases hm : (parseFlag values).Mode with
    | None => exact absurd (parseFlag_none_empty values hm) hne
    | Delim => exact Or.inl rfl
    | Multi => exact Or.inr rfl
  · rcases foldl_Set_delim_origin values multiValueSetting.zero with h | ⟨_, hmem⟩
    · exact absurd h hne
    · exact hmem

/-- Witness for C21 (amended): after "delim ;" and then "multi" the delimiter
";" comes from the first call; after "none" alone there is no delimiter. -/
theorem C21_delimiter_comes_from_delim_call_witness :
    ((parseFlag ["none".toList]).Mode = .None ∧ (parseFlag ["none".toList]).Delim = []) ∧
    ((parseFlag ["delim ;".toList, "multi".toList]).Delim ≠ [] ∧
      ((parseFlag ["delim ;".toList, "multi".toList]).Mode = .Delim ∨
        (parseFlag ["delim ;".toList, "multi".toList]).Mode = .Multi) ∧
      "delim ".toList ++ (parseFlag ["delim ;".toList, "multi".toList]).Delim
        ∈ ["delim ;".toList, "multi".toList]) :=
  ⟨⟨by decide, (C21_delimiter_comes_from_delim_call ["none".toList]).1 (by decide)⟩,
   ⟨by decide,
    (C21_delimiter_comes_from_delim_call ["delim ;".toList, "multi".toList]).2 (by decide)⟩⟩

end Gonic
